import Mathlib

/-!
Verification development for the katsuragi wireframe compiler core
(lexer, cell-coordinate codec, recursive-descent parser, layout
calculator, theme resolver, SVG rendering engine).

The definitions below are a shallow embedding of the TypeScript source:
  - src/parser/lexer.ts       (tokenize and helpers)
  - src/parser/cellRef.ts     (parseCellRef, parseCellRange)
  - src/parser/parser.ts      (parse and helpers)
  - src/parser/errors.ts      (KuiSyntaxError, modelled as ParseErr.kui)
  - src/layout/calculator.ts  (calculateCanvasSize, calculateSizes, calculateCellRect)
  - src/svg/themes.ts         (THEMES, getTheme)
  - src/svg/components.ts     (wrapText, fitTextToRect, renderers)
  - src/svg/generator.ts      (generateSvg)

Modelling conventions:
  - JavaScript numbers are modelled as ℚ (the geometry and text-fitting
    arithmetic is exact in the source's intent; IEEE rounding is not
    modelled).  Integer-valued metadata is modelled as Nat.
  - Thrown exceptions are modelled with Except.  KuiSyntaxError carries
    its message and its SourceLocation field; plain JS Error objects
    (thrown by the lexer and by the cell-reference codec) carry only a
    message string.
  - The on-disk image loading capability (src/utils/image.ts, declared
    out of scope by the specification) is modelled as an injected
    function `load : String → String → Option String` mapping (src,
    basePath) to a data URI, `none` meaning the load threw.
-/

deriving instance DecidableEq for Except

namespace Katsuragi

/-- `SourceLocation` from src/types.ts: 1-indexed line/column, 0-indexed offset. -/
structure SourceLocation where
  line : Nat
  column : Nat
  offset : Nat
deriving DecidableEq, Repr

/-- Token kinds from src/parser/lexer.ts.  The source spells the ratio-literal
kind `RATIO`; it is spelt `RATIO_LIT` here (with `tokenTypeName` still
producing the string `RATIO` used in error messages). -/
inductive TokenType where
  | IDENTIFIER
  | STRING
  | NUMBER
  | COLON
  | COMMA
  | LBRACE
  | RBRACE
  | CELL_REF
  | CELL_RANGE
  | RATIO_LIT
  | GRID
  | NEWLINE
  | EOF
  | HEX_COLOR
  | THEME_REF
deriving DecidableEq, Repr

/-- The string each `TokenType` value is in the source (used in messages). -/
def tokenTypeName : TokenType → String
  | .IDENTIFIER => "IDENTIFIER"
  | .STRING => "STRING"
  | .NUMBER => "NUMBER"
  | .COLON => "COLON"
  | .COMMA => "COMMA"
  | .LBRACE => "LBRACE"
  | .RBRACE => "RBRACE"
  | .CELL_REF => "CELL_REF"
  | .CELL_RANGE => "CELL_RANGE"
  | .RATIO_LIT => "RATIO"
  | .GRID => "GRID"
  | .NEWLINE => "NEWLINE"
  | .EOF => "EOF"
  | .HEX_COLOR => "HEX_COLOR"
  | .THEME_REF => "THEME_REF"

structure Token where
  type : TokenType
  value : String
  loc : SourceLocation
deriving DecidableEq, Repr

/-! ## Lexer (src/parser/lexer.ts) -/

/-- Scanner state: the characters not yet consumed plus the current
line/column/offset (the source tracks `pos`, `line`, `column`). -/
structure LexState where
  rest : List Char
  line : Nat
  column : Nat
  offset : Nat
deriving DecidableEq, Repr

def curLoc (st : LexState) : SourceLocation := ⟨st.line, st.column, st.offset⟩

/-- One `advance()` step: newline bumps the line, anything else the column. -/
def adv1 (st : LexState) : LexState :=
  match st.rest with
  | [] => st
  | c :: r =>
    if c = '\n' then ⟨r, st.line + 1, 1, st.offset + 1⟩
    else ⟨r, st.line, st.column + 1, st.offset + 1⟩

def consumeWhileAux (p : Char → Bool) :
    List Char → Nat → Nat → Nat → List Char × LexState
  | [], line, col, off => ([], ⟨[], line, col, off⟩)
  | c :: r, line, col, off =>
    if p c then
      let res :=
        if c = '\n' then consumeWhileAux p r (line + 1) 1 (off + 1)
        else consumeWhileAux p r line (col + 1) (off + 1)
      (c :: res.1, res.2)
    else ([], ⟨c :: r, line, col, off⟩)

/-- Consume the maximal run of characters satisfying `p` (the source's
`while (pos < input.length && p(peek())) advance()` pattern). -/
def consumeWhile (p : Char → Bool) (st : LexState) : List Char × LexState :=
  consumeWhileAux p st.rest st.line st.column st.offset

def skipWhitespace (st : LexState) : LexState :=
  (consumeWhile (fun c => c = ' ' || c = '\t') st).2

def skipComment (st : LexState) : LexState :=
  match st.rest with
  | '/' :: '/' :: _ => (consumeWhile (fun c => !(c = '\n')) st).2
  | _ => st

def isWordChar (c : Char) : Bool := c.isAlphanum || c = '_'

def unterminatedMsg (startLoc : SourceLocation) : String :=
  "Unterminated string at " ++ toString startLoc.line ++ ":" ++ toString startLoc.column

/-- Escape mapping inside quoted strings; unknown escapes pass through. -/
def escapeChar (e : Char) : String :=
  if e = 'n' then "\n"
  else if e = 't' then "\t"
  else if e = 'r' then "\r"
  else if e = '\\' then "\\"
  else if e = '"' then "\""
  else if e = Char.ofNat 39 then String.singleton (Char.ofNat 39)
  else String.singleton e

/-- `readString` body after the opening quote has been consumed.  The
quote characters are never `'\n'`, so consuming the closing quote only
advances the column. -/
def readStringAux (quote : Char) (startLoc : SourceLocation) :
    List Char → Nat → Nat → Nat → String → Except String (String × LexState)
  | [], _, _, _, _ => .error (unterminatedMsg startLoc)
  | c :: r, line, col, off, value =>
    if c = quote then .ok (value, ⟨r, line, col + 1, off + 1⟩)
    else if c = '\\' then
      match r with
      | [] => .error (unterminatedMsg startLoc)
      | e :: r2 =>
        if e = '\n' then readStringAux quote startLoc r2 (line + 1) 1 (off + 2) (value ++ escapeChar e)
        else readStringAux quote startLoc r2 line (col + 2) (off + 2) (value ++ escapeChar e)
    else if c = '\n' then readStringAux quote startLoc r (line + 1) 1 (off + 1) (value.push c)
    else readStringAux quote startLoc r line (col + 1) (off + 1) (value.push c)

/-- `readBacktickString` body after the opening backtick (no escapes). -/
def readBacktickAux (startLoc : SourceLocation) :
    List Char → Nat → Nat → Nat → String → Except String (String × LexState)
  | [], _, _, _, _ => .error (unterminatedMsg startLoc)
  | c :: r, line, col, off, value =>
    if c = Char.ofNat 96 then .ok (value, ⟨r, line, col + 1, off + 1⟩)
    else if c = '\n' then readBacktickAux startLoc r (line + 1) 1 (off + 1) (value.push c)
    else readBacktickAux startLoc r line (col + 1) (off + 1) (value.push c)

def readWord (st : LexState) : List Char × LexState :=
  consumeWhile isWordChar st

/-- `readCellRefOrRange`: a `[A-Za-z0-9]` run, optionally `..` and a second run. -/
def readCellRefOrRange (st : LexState) : List Char × LexState :=
  let res1 := consumeWhile Char.isAlphanum st
  match res1.2.rest with
  | '.' :: '.' :: _ =>
    let st2 := adv1 (adv1 res1.2)
    let res2 := consumeWhile Char.isAlphanum st2
    (res1.1 ++ '.' :: '.' :: res2.1, res2.2)
  | _ => res1

def readNumberOrRatioOrGrid (st : LexState) : List Char × LexState :=
  consumeWhile (fun c => c.isDigit || c = ':' || c = 'x' || c = 'X') st

/-- The regex `/^[A-Z]\d+$/i`: one letter, then one or more digits. -/
def isLetterDigits (l : List Char) : Bool :=
  match l with
  | c :: rest => c.isAlpha && !rest.isEmpty && rest.all Char.isDigit
  | [] => false

/-- `str.split('..')` on character lists (left-to-right, non-overlapping). -/
def splitOnDots : List Char → List (List Char)
  | [] => [[]]
  | '.' :: '.' :: rest => [] :: splitOnDots rest
  | c :: rest =>
    match splitOnDots rest with
    | [] => [[c]]
    | h :: t => (c :: h) :: t

/-- `str.split(sep)` for a single-character separator, on character lists. -/
def splitOn1 (sep : Char) : List Char → List (List Char)
  | [] => [[]]
  | c :: rest =>
    if c = sep then [] :: splitOn1 sep rest
    else
      match splitOn1 sep rest with
      | [] => [[c]]
      | h :: t => (c :: h) :: t

/-- The regex `/^[A-Z]\d+\.\.[A-Z]\d+$/i`. -/
def isCellRangeStr (l : List Char) : Bool :=
  match splitOnDots l with
  | [a, b] => isLetterDigits a && isLetterDigits b
  | _ => false

/-- The regex `/^\d+:\d+$/`. -/
def isRatioStr (l : List Char) : Bool :=
  match l.span Char.isDigit with
  | (d1, c :: d2) => !d1.isEmpty && c = ':' && !d2.isEmpty && d2.all Char.isDigit
  | _ => false

/-- The regex `/^\d+x\d+$/i`. -/
def isGridStr (l : List Char) : Bool :=
  match l.span Char.isDigit with
  | (d1, c :: d2) => !d1.isEmpty && (c = 'x' || c = 'X') && !d2.isEmpty && d2.all Char.isDigit
  | _ => false

def isHexDigit (c : Char) : Bool :=
  c.isDigit || ('A' ≤ c && c ≤ 'F') || ('a' ≤ c && c ≤ 'f')

def toUpperStr (s : String) : String := String.mk (s.data.map Char.toUpper)

def toLowerStr (s : String) : String := String.mk (s.data.map Char.toLower)

/-- The scanner loop of `tokenize`.  Each iteration consumes at least one
character, so the fuel supplied by `tokenize` (input length + 1) never
runs out; the `0` case is unreachable there. -/
def scanTokens (fuel : Nat) (lastWasNewline : Bool) (st : LexState) (acc : List Token) :
    Except String (List Token) :=
  match fuel with
  | 0 => .error "lexer fuel exhausted"
  | fuel + 1 =>
    let st := skipComment (skipWhitespace st)
    match st.rest with
    | [] => .ok (acc ++ [⟨.EOF, "", curLoc st⟩])
    | ch :: _ =>
      let loc := curLoc st
      if ch = '\n' then
        let st1 := adv1 st
        if lastWasNewline then scanTokens fuel true st1 acc
        else scanTokens fuel true st1 (acc ++ [⟨.NEWLINE, "\n", loc⟩])
      else
      -- `lastWasNewline = false` from here on, mirroring the assignment that
      -- precedes the carriage-return check in the source.
      if ch = '\r' then scanTokens fuel false (adv1 st) acc
      else if ch = Char.ofNat 123 then
        scanTokens fuel false (adv1 st) (acc ++ [⟨.LBRACE, "\x7b", loc⟩])
      else if ch = Char.ofNat 125 then
        scanTokens fuel false (adv1 st) (acc ++ [⟨.RBRACE, "\x7d", loc⟩])
      else if ch = ',' then
        scanTokens fuel false (adv1 st) (acc ++ [⟨.COMMA, ",", loc⟩])
      else if ch = '"' || ch = Char.ofNat 39 then
        let st1 := adv1 st
        match readStringAux ch loc st1.rest st1.line st1.column st1.offset "" with
        | .error e => .error e
        | .ok (value, st2) => scanTokens fuel false st2 (acc ++ [⟨.STRING, value, loc⟩])
      else if ch = Char.ofNat 96 then
        let st1 := adv1 st
        match readBacktickAux loc st1.rest st1.line st1.column st1.offset "" with
        | .error e => .error e
        | .ok (value, st2) => scanTokens fuel false st2 (acc ++ [⟨.STRING, value, loc⟩])
      else if ch = '#' then
        let st1 := adv1 st
        let res := consumeWhile isHexDigit st1
        let hex := res.1
        let value := "#" ++ List.asString hex
        if hex.length = 3 || hex.length = 6 then
          scanTokens fuel false res.2 (acc ++ [⟨.HEX_COLOR, value, loc⟩])
        else
          .error ("Invalid hex color: " ++ value ++ " at " ++ toString loc.line ++ ":" ++ toString loc.column)
      else if ch = '$' then
        let st1 := adv1 st
        let res := consumeWhile isWordChar st1
        let value := "$" ++ List.asString res.1
        if res.1.isEmpty then
          .error ("Invalid theme reference at " ++ toString loc.line ++ ":" ++ toString loc.column)
        else
          scanTokens fuel false res.2 (acc ++ [⟨.THEME_REF, value, loc⟩])
      else if ch.isAlpha then
        let res := readCellRefOrRange st
        if isCellRangeStr res.1 then
          scanTokens fuel false res.2 (acc ++ [⟨.CELL_RANGE, toUpperStr (List.asString res.1), loc⟩])
        else if isLetterDigits res.1 then
          scanTokens fuel false res.2 (acc ++ [⟨.CELL_REF, toUpperStr (List.asString res.1), loc⟩])
        else
          -- reset to the saved position and re-scan as an identifier
          let resW := readWord st
          scanTokens fuel false resW.2 (acc ++ [⟨.IDENTIFIER, List.asString resW.1, loc⟩])
      else if ch.isDigit then
        let res := readNumberOrRatioOrGrid st
        let value := List.asString res.1
        if isRatioStr res.1 then scanTokens fuel false res.2 (acc ++ [⟨.RATIO_LIT, value, loc⟩])
        else if isGridStr res.1 then scanTokens fuel false res.2 (acc ++ [⟨.GRID, value, loc⟩])
        else scanTokens fuel false res.2 (acc ++ [⟨.NUMBER, value, loc⟩])
      else if ch = ':' then
        scanTokens fuel false (adv1 st) (acc ++ [⟨.COLON, ":", loc⟩])
      else
        .error ("Unexpected character: \x27" ++ String.singleton ch ++ "\x27 at "
          ++ toString loc.line ++ ":" ++ toString loc.column)

/-- `tokenize` from src/parser/lexer.ts. -/
def tokenize (input : String) : Except String (List Token) :=
  scanTokens (input.data.length + 1) false ⟨input.data, 1, 1, 0⟩ []

/-! ## Cell-coordinate codec (src/parser/cellRef.ts) -/

structure CellCoord where
  col : Nat
  row : Nat
deriving DecidableEq, Repr

/-- `CellRange` from src/types.ts.  The source's field `end` is a reserved
word in Lean and is spelt `stop` here. -/
structure CellRange where
  start : CellCoord
  stop : CellCoord
deriving DecidableEq, Repr

def digitsVal (l : List Char) : Nat :=
  l.foldl (fun a c => a * 10 + (c.toNat - 48)) 0

/-- `parseCellRef`: `/^([A-Z])(\d+)$/` on the upper-cased input; the
`row < 0` check of the source corresponds to the digits reading as 0. -/
def parseCellRef (ref : String) : Except String CellCoord :=
  match ref.data.map Char.toUpper with
  | c :: rest =>
    if ('A' ≤ c && c ≤ 'Z') && (!rest.isEmpty && rest.all Char.isDigit) then
      let n := digitsVal rest
      if n = 0 then .error ("Invalid row number in cell reference: " ++ ref)
      else .ok ⟨c.toNat - 65, n - 1⟩
    else .error ("Invalid cell reference: " ++ ref)
  | [] => .error ("Invalid cell reference: " ++ ref)

/-- `parseCellRange`: split on `..`; one part duplicates, two parts are
normalised component-wise with min/max. -/
def parseCellRange (rangeStr : String) : Except String CellRange :=
  match splitOnDots rangeStr.data with
  | [p] =>
    match parseCellRef (List.asString p) with
    | .error m => .error m
    | .ok coord => .ok ⟨coord, coord⟩
  | [p, q] =>
    match parseCellRef (List.asString p) with
    | .error m => .error m
    | .ok start =>
      match parseCellRef (List.asString q) with
      | .error m => .error m
      | .ok e =>
        .ok ⟨⟨min start.col e.col, min start.row e.row⟩,
             ⟨max start.col e.col, max start.row e.row⟩⟩
  | _ => .error ("Invalid cell range: " ++ rangeStr)

/-! ## Document model (src/types.ts) -/

inductive ComponentType where
  | txt
  | box
  | btn
  | input
  | img
deriving DecidableEq, Repr

/-- `ComponentProps`: the source's open property bag after parsing. -/
structure ComponentProps where
  value : Option String := none
  label : Option String := none
  align : Option String := none
  bg : Option String := none
  border : Option String := none
  src : Option String := none
  alt : Option String := none
  padding : Option Int := none
deriving DecidableEq, Repr

structure Component where
  type : ComponentType
  range : CellRange
  props : ComponentProps
deriving DecidableEq, Repr

/-- Document metadata.  `colors` is the insertion-ordered string map of the
source (`ColorTheme`); `theme`, `colWidths`, `rowHeights` are consumed by the
renderer (`src/svg/generator.ts`) and never set by this parser. -/
structure Metadata where
  ratio : Nat × Nat
  grid : Nat × Nat
  gap : Option Nat := none
  padding : Option Nat := none
  colors : Option (List (String × String)) := none
  theme : Option String := none
  colWidths : Option (List ℚ) := none
  rowHeights : Option (List ℚ) := none
deriving DecidableEq, Repr

structure KuiDocument where
  metadata : Metadata
  components : List Component
deriving DecidableEq, Repr

/-! ## Parser (src/parser/parser.ts) -/

/-- Errors escaping `parse`: `kui` is a `KuiSyntaxError` (message plus its
`loc` field, src/parser/errors.ts; the JS `Error.message` additionally
appends " at line:column"); `plain` is a plain JS `Error` whose only
payload is its message string (thrown by the lexer and by cellRef.ts);
`noFuel` marks exhaustion of the termination fuel, which the fuel chosen
in `parse` never reaches. -/
inductive ParseErr where
  | kui (message : String) (loc : SourceLocation)
  | plain (message : String)
  | noFuel
deriving DecidableEq, Repr

/-- JS truthiness of `string | undefined`: `undefined` and `""` are falsy. -/
def truthy (o : Option String) : Bool :=
  match o with
  | none => false
  | some s => !(s = "")

/-- JS object property assignment `obj[key] = value` on an
insertion-ordered association list. -/
def setProp (props : List (String × String)) (key value : String) : List (String × String) :=
  if props.any (fun p => p.1 = key) then
    props.map (fun p => if p.1 = key then (key, value) else p)
  else props ++ [(key, value)]

/-- JS object property read `obj[key]`. -/
def getProp (props : List (String × String)) (key : String) : Option String :=
  (props.find? (fun p => p.1 = key)).map (fun p => p.2)

def eofToken : Token := ⟨.EOF, "", ⟨1, 1, 0⟩⟩

/-- `peek()`: the next token, or the default EOF token past the end. -/
def peekT (ts : List Token) : Token := ts.headD eofToken

/-- `skipNewlines()`. -/
def dropNewlines : List Token → List Token
  | t :: rest => if t.type = .NEWLINE then dropNewlines rest else t :: rest
  | [] => []

/-- `expect(type)`. -/
def expectT (ty : TokenType) (ts : List Token) : Except ParseErr (Token × List Token) :=
  let token := peekT ts
  if token.type = ty then .ok (token, ts.tail)
  else .error (.kui ("Expected " ++ tokenTypeName ty ++ ", got " ++ tokenTypeName token.type) token.loc)

/-- Leading-digits value of `parseInt(v, 10)` for the digit-led token values
(`NUMBER`, and the parts of `RATIO`/`GRID` literals) it is applied to.  On a
value with no leading digit JS would produce `NaN`; that case is unreachable
from those token shapes and is modelled as 0. -/
def parseIntTok (s : String) : Nat :=
  digitsVal (s.data.takeWhile Char.isDigit)

/-- `parseInt(v, 10)` for arbitrary property-value strings: leading
whitespace, an optional sign, then digits; `none` models `NaN`. -/
def parseIntJS (s : String) : Option Int :=
  let t := s.data.dropWhile (fun c => c = ' ' || c = '\t' || c = '\n' || c = '\r')
  match t with
  | '-' :: ds =>
    let digits := ds.takeWhile Char.isDigit
    if digits.isEmpty then none else some (-(digitsVal digits : Int))
  | '+' :: ds =>
    let digits := ds.takeWhile Char.isDigit
    if digits.isEmpty then none else some (digitsVal digits : Int)
  | ds =>
    let digits := ds.takeWhile Char.isDigit
    if digits.isEmpty then none else some (digitsVal digits : Int)

/-- `parseRatio` from the parser. -/
def parseRatioStr (value : String) : Nat × Nat :=
  let parts := splitOn1 ':' value.data
  (parseIntTok (List.asString (parts.getD 0 [])), parseIntTok (List.asString (parts.getD 1 [])))

/-- `parseGrid` from the parser. -/
def parseGridStr (value : String) : Nat × Nat :=
  let parts := splitOn1 'x' (toLowerStr value).data
  (parseIntTok (List.asString (parts.getD 0 [])), parseIntTok (List.asString (parts.getD 1 [])))

/-- The `while (peek().type !== RBRACE)` loop of `parseProps`.  Each
iteration consumes at least one token, so the fuel supplied by
`parseProps` never runs out. -/
def parsePropsLoop (fuel : Nat) (ts : List Token) (props : List (String × String)) :
    Except ParseErr (List (String × String) × List Token) :=
  match fuel with
  | 0 => .error .noFuel
  | fuel + 1 =>
    if (peekT ts).type = .RBRACE then .ok (props, ts)
    else
      let ts := dropNewlines ts
      if (peekT ts).type = .RBRACE then .ok (props, ts)
      else
        match expectT .IDENTIFIER ts with
        | .error e => .error e
        | .ok (keyTok, ts) =>
          match expectT .COLON ts with
          | .error e => .error e
          | .ok (_, ts) =>
            let nextToken := peekT ts
            match nextToken.type with
            | .STRING | .IDENTIFIER | .NUMBER | .HEX_COLOR | .THEME_REF =>
              let value := nextToken.value
              let ts := ts.tail
              let props := setProp props keyTok.value value
              let ts := dropNewlines ts
              let ts := if (peekT ts).type = .COMMA then dropNewlines ts.tail else ts
              parsePropsLoop fuel ts props
            | _ => .error (.kui ("Unexpected token " ++ tokenTypeName nextToken.type ++ " for property value") nextToken.loc)

/-- `parseProps`. -/
def parseProps (ts : List Token) : Except ParseErr (List (String × String) × List Token) :=
  match expectT .LBRACE ts with
  | .error e => .error e
  | .ok (_, ts) =>
    let ts := dropNewlines ts
    match parsePropsLoop (ts.length + 1) ts [] with
    | .error e => .error e
    | .ok (props, ts) =>
      match expectT .RBRACE ts with
      | .error e => .error e
      | .ok (_, ts) => .ok (props, ts)

/-- The `while` loop of `parseColors` (same shape as `parsePropsLoop`, with
the color value kinds and message). -/
def parseColorsLoop (fuel : Nat) (ts : List Token) (colors : List (String × String)) :
    Except ParseErr (List (String × String) × List Token) :=
  match fuel with
  | 0 => .error .noFuel
  | fuel + 1 =>
    if (peekT ts).type = .RBRACE then .ok (colors, ts)
    else
      let ts := dropNewlines ts
      if (peekT ts).type = .RBRACE then .ok (colors, ts)
      else
        match expectT .IDENTIFIER ts with
        | .error e => .error e
        | .ok (keyTok, ts) =>
          match expectT .COLON ts with
          | .error e => .error e
          | .ok (_, ts) =>
            let valueToken := peekT ts
            match valueToken.type with
            | .HEX_COLOR | .STRING | .IDENTIFIER =>
              let value := valueToken.value
              let ts := ts.tail
              let colors := setProp colors keyTok.value value
              let ts := dropNewlines ts
              let ts := if (peekT ts).type = .COMMA then dropNewlines ts.tail else ts
              parseColorsLoop fuel ts colors
            | _ => .error (.kui ("Expected color value, got " ++ tokenTypeName valueToken.type) valueToken.loc)

/-- `parseColors`. -/
def parseColors (ts : List Token) : Except ParseErr (List (String × String) × List Token) :=
  match expectT .LBRACE ts with
  | .error e => .error e
  | .ok (_, ts) =>
    let ts := dropNewlines ts
    match parseColorsLoop (ts.length + 1) ts [] with
    | .error e => .error e
    | .ok (colors, ts) =>
      match expectT .RBRACE ts with
      | .error e => .error e
      | .ok (_, ts) => .ok (colors, ts)

/-- `resolveColor`.  `!value` also catches the empty string; the falsy
lookup test `!colors?.[name]` likewise treats an empty stored color as
undefined. -/
def resolveColor (value : Option String) (colors : Option (List (String × String)))
    (loc : SourceLocation) : Except ParseErr (Option String) :=
  match value with
  | none => .ok none
  | some v =>
    if v = "" then .ok none
    else
      match v.data with
      | '$' :: nameChars =>
        let name := List.asString nameChars
        match colors.bind (fun cs => getProp cs name) with
        | none => .error (.kui ("Undefined theme color: " ++ v) loc)
        | some resolved =>
          if resolved = "" then .error (.kui ("Undefined theme color: " ++ v) loc)
          else .ok (some resolved)
      | _ => .ok (some v)

/-- `rangesOverlap`. -/
def rangesOverlap (a b : CellRange) : Bool :=
  let noOverlap :=
    decide (a.stop.col < b.start.col) || decide (b.stop.col < a.start.col) ||
    decide (a.stop.row < b.start.row) || decide (b.stop.row < a.start.row)
  !noOverlap

/-- `validateRangeWithinGrid` (the `source` parameter of the original only
feeds `KuiSyntaxError.format()` and is not part of the error value modelled
here). -/
def validateRangeWithinGrid (range : CellRange) (grid : Nat × Nat)
    (rangeStr : String) (loc : SourceLocation) : Except ParseErr Unit :=
  let cols := grid.1
  let rows := grid.2
  if range.start.col ≥ cols ∨ range.stop.col ≥ cols then
    .error (.kui ("Cell \"" ++ rangeStr ++ "\" exceeds column bounds. Grid is "
      ++ toString cols ++ "x" ++ toString rows ++ ", valid columns: A-"
      ++ String.singleton (Char.ofNat (64 + cols))) loc)
  else if range.start.row ≥ rows ∨ range.stop.row ≥ rows then
    .error (.kui ("Cell \"" ++ rangeStr ++ "\" exceeds row bounds. Grid is "
      ++ toString cols ++ "x" ++ toString rows ++ ", valid rows: 1-" ++ toString rows) loc)
  else .ok ()

def componentTypeFromString (s : String) : Option ComponentType :=
  if s = "txt" then some .txt
  else if s = "box" then some .box
  else if s = "btn" then some .btn
  else if s = "input" then some .input
  else if s = "img" then some .img
  else none

/-- `parseComponent` (a closure over `components` and `metadata` in the
source; they are explicit parameters here). -/
def parseComponent (cellToken : Token) (ts : List Token) (md : Metadata)
    (components : List Component) : Except ParseErr (Component × List Token) :=
  let rangeStr := cellToken.value
  match parseCellRange rangeStr with
  | .error m => .error (.plain m)
  | .ok range =>
    match expectT .COLON ts with
    | .error e => .error e
    | .ok (_, ts) =>
      let ts := dropNewlines ts
      match parseProps ts with
      | .error e => .error e
      | .ok (rawProps, ts) =>
        if truthy (getProp rawProps "type") = false then
          .error (.kui "Component missing type property" cellToken.loc)
        else
          let typeStr := (getProp rawProps "type").getD ""
          match componentTypeFromString typeStr with
          | none => .error (.kui ("Invalid component type: " ++ typeStr) cellToken.loc)
          | some componentType =>
            -- `(rawProps.align as Align) || 'left'`
            let align :=
              match getProp rawProps "align" with
              | none => "left"
              | some a => if a = "" then "left" else a
            if ¬(align = "left" ∨ align = "center" ∨ align = "right") then
              .error (.kui ("Invalid align value: " ++ align) cellToken.loc)
            else
              match components.find? (fun existing => rangesOverlap existing.range range) with
              | some _ =>
                .error (.kui ("Cell overlap detected: " ++ rangeStr
                  ++ " overlaps with existing component") cellToken.loc)
              | none =>
                match resolveColor (getProp rawProps "bg") md.colors cellToken.loc with
                | .error e => .error e
                | .ok bg =>
                  match resolveColor (getProp rawProps "border") md.colors cellToken.loc with
                  | .error e => .error e
                  | .ok border =>
                    .ok ({ type := componentType
                         , range := range
                         , props :=
                           { value := getProp rawProps "value"
                           , label := getProp rawProps "label"
                           , align := some align
                           , bg := bg
                           , border := border
                           , src := getProp rawProps "src"
                           , alt := getProp rawProps "alt"
                           , padding :=
                             match getProp rawProps "padding" with
                             | none => none
                             | some p => if p = "" then none else parseIntJS p } }, ts)

/-- The metadata-statement arm of the main loop (`ratio` / `grid` / `gap` /
`padding` / `colors` / unknown-key error), after the identifier token has
been consumed. -/
def parseMetadataStmt (identToken : Token) (ts : List Token) (md : Metadata) :
    Except ParseErr (Metadata × List Token) :=
  let name := toLowerStr identToken.value
  match expectT .COLON ts with
  | .error e => .error e
  | .ok (_, ts) =>
    if name = "ratio" then
      match expectT .RATIO_LIT ts with
      | .error e => .error e
      | .ok (ratioToken, ts) => .ok ({ md with ratio := parseRatioStr ratioToken.value }, ts)
    else if name = "grid" then
      match expectT .GRID ts with
      | .error e => .error e
      | .ok (gridToken, ts) => .ok ({ md with grid := parseGridStr gridToken.value }, ts)
    else if name = "gap" then
      match expectT .NUMBER ts with
      | .error e => .error e
      | .ok (numToken, ts) => .ok ({ md with gap := some (parseIntTok numToken.value) }, ts)
    else if name = "padding" then
      match expectT .NUMBER ts with
      | .error e => .error e
      | .ok (numToken, ts) => .ok ({ md with padding := some (parseIntTok numToken.value) }, ts)
    else if name = "colors" then
      match parseColors ts with
      | .error e => .error e
      | .ok (colors, ts) => .ok ({ md with colors := some colors }, ts)
    else .error (.kui ("Unknown metadata: " ++ name) identToken.loc)

/-- The main parsing loop.  Each iteration consumes at least one token, so
the fuel supplied by `parseTokens` never runs out. -/
def parseLoop (fuel : Nat) (ts : List Token) (md : Metadata) (components : List Component) :
    Except ParseErr KuiDocument :=
  match fuel with
  | 0 => .error .noFuel
  | fuel + 1 =>
    if (peekT ts).type = .EOF then .ok ⟨md, components⟩
    else
      let ts1 := dropNewlines ts
      let token := peekT ts1
      match token.type with
      | .EOF => .ok ⟨md, components⟩
      | .IDENTIFIER =>
        match parseMetadataStmt token ts1.tail md with
        | .error e => .error e
        | .ok (md', ts2) => parseLoop fuel ts2 md' components
      | .CELL_REF | .CELL_RANGE =>
        match parseComponent token ts1.tail md components with
        | .error e => .error e
        | .ok (component, ts2) =>
          match validateRangeWithinGrid component.range md.grid token.value token.loc with
          | .error e => .error e
          | .ok _ => parseLoop fuel ts2 md (components ++ [component])
      | _ =>
        -- Skip unknown tokens
        parseLoop fuel ts1.tail md components

def initialMetadata : Metadata := { ratio := (16, 9), grid := (4, 3) }

def parseTokens (ts : List Token) : Except ParseErr KuiDocument :=
  parseLoop (ts.length + 1) ts initialMetadata []

/-- `parse` from src/parser/parser.ts: lexer exceptions propagate untouched. -/
def parse (input : String) : Except ParseErr KuiDocument :=
  match tokenize input with
  | .error m => .error (.plain m)
  | .ok ts => parseTokens ts

/-! ## Layout calculator (src/layout/calculator.ts) -/

structure CanvasSize where
  width : ℚ
  height : ℚ
deriving DecidableEq, Repr

structure LayoutConfig where
  gap : ℚ
  padding : ℚ
deriving DecidableEq, Repr

structure LayoutRect where
  x : ℚ
  y : ℚ
  width : ℚ
  height : ℚ
  padding : ℚ
deriving DecidableEq, Repr

structure GridSizes where
  colSizes : List ℚ
  rowSizes : List ℚ
deriving DecidableEq, Repr

def LONGEST_EDGE : ℚ := 1280

def DEFAULT_PADDING : ℚ := 16

/-- `Math.round`: round half toward positive infinity. -/
def jsRound (q : ℚ) : ℚ := ((⌊q + 1/2⌋ : ℤ) : ℚ)

/-- `calculateCanvasSize`. -/
def calculateCanvasSize (ratio : Nat × Nat) : CanvasSize :=
  let w := ratio.1
  let h := ratio.2
  if h ≤ w then
    { width := LONGEST_EDGE, height := jsRound ((LONGEST_EDGE * h) / w) }
  else
    { width := jsRound ((LONGEST_EDGE * w) / h), height := LONGEST_EDGE }

/-- `calculateSizes`. -/
def calculateSizes (totalSize : ℚ) (count : Nat) (gap : ℚ) (ratios : Option (List ℚ)) :
    List ℚ :=
  let totalGap := gap * ((count : ℚ) - 1)
  let available := totalSize - totalGap
  match ratios with
  | none => List.replicate count (available / count)
  | some rs =>
    let totalRatio := rs.sum
    rs.map (fun r => (available * r) / totalRatio)

/-- `calculateCellRect`.  Out-of-range `colSizes[i]` reads are `undefined`
(and poison the arithmetic with `NaN`) in JS; they are modelled as 0 and are
never hit by the in-bounds geometry proved about this function. -/
def calculateCellRect (range : CellRange) (grid : Nat × Nat) (canvas : CanvasSize)
    (config : LayoutConfig := { gap := 0, padding := DEFAULT_PADDING })
    (cellPadding : Option ℚ := none) (gridSizes : Option GridSizes := none) : LayoutRect :=
  let cols := grid.1
  let rows := grid.2
  let gap := config.gap
  let colSizes :=
    match gridSizes with
    | some g => g.colSizes
    | none => calculateSizes canvas.width cols gap none
  let rowSizes :=
    match gridSizes with
    | some g => g.rowSizes
    | none => calculateSizes canvas.height rows gap none
  let x := ((List.range range.start.col).map (fun i => colSizes.getD i 0 + gap)).sum
  let y := ((List.range range.start.row).map (fun i => rowSizes.getD i 0 + gap)).sum
  let width :=
    ((List.range (range.stop.col + 1 - range.start.col)).map
      (fun k => colSizes.getD (range.start.col + k) 0)).sum
    + gap * ((range.stop.col - range.start.col : Nat) : ℚ)
  let height :=
    ((List.range (range.stop.row + 1 - range.start.row)).map
      (fun k => rowSizes.getD (range.start.row + k) 0)).sum
    + gap * ((range.stop.row - range.start.row : Nat) : ℚ)
  { x := x, y := y, width := width, height := height,
    padding := cellPadding.getD config.padding }

/-! ## Theme resolver (src/svg/themes.ts) -/

structure Theme where
  strokeWidth : ℚ
  borderRadius : ℚ
  fontSize : ℚ
  defaultBg : String
deriving DecidableEq, Repr

def defaultTheme : Theme :=
  { strokeWidth := 2, borderRadius := 8, fontSize := 24, defaultBg := "#e0e0e0" }

def THEMES : List (String × Theme) :=
  [ ("default", defaultTheme)
  , ("clean", { strokeWidth := 1, borderRadius := 4, fontSize := 20, defaultBg := "#f0f0f0" })
  , ("bold", { strokeWidth := 3, borderRadius := 12, fontSize := 28, defaultBg := "#d0d0d0" }) ]

/-- `getTheme`: `!name` (absent or empty) falls back to the default theme;
an unknown non-empty name throws. -/
def getTheme (name : Option String) : Except String Theme :=
  if truthy name = false then .ok defaultTheme
  else
    match (THEMES.find? (fun p => p.1 = name.getD "")).map (fun p => p.2) with
    | some theme => .ok theme
    | none =>
      .error ("Unknown theme \"" ++ name.getD "" ++ "\". Available themes: "
        ++ String.intercalate ", " (THEMES.map (fun p => p.1)))

/-! ## Rendering engine (src/svg/components.ts, src/svg/generator.ts) -/

def LINE_HEIGHT : ℚ := 6/5

def MIN_FONT_SIZE : ℚ := 8

/-- JS number-to-string interpolation `${q}`; the textual format differs
from JS float formatting, which no proved property observes. -/
def numStr (q : ℚ) : String := toString q

/-- `escapeXml`: the source chains five global `replace` calls
(`&`, `<`, `>`, `"`, then the apostrophe).  Because the earlier
replacements introduce none of the later patterns (the entity strings
contain only `&`, letters and `;`, and `&` is replaced first), the chain
is extensionally the single left-to-right character map below. -/
def escapeXml (text : String) : String :=
  String.mk ((text.data.map (fun c =>
    if c = '&' then "&amp;".data
    else if c = '<' then "&lt;".data
    else if c = '>' then "&gt;".data
    else if c = '"' then "&quot;".data
    else if c = Char.ofNat 39 then "&apos;".data
    else [c])).flatten)

/-- `isCjk`: CJK unified ideographs, hiragana, katakana, full-width forms,
Hangul. -/
def isCjk (char : Char) : Bool :=
  let cp := char.toNat
  decide (0x4e00 ≤ cp ∧ cp ≤ 0x9fff) ||
  decide (0x3040 ≤ cp ∧ cp ≤ 0x309f) ||
  decide (0x30a0 ≤ cp ∧ cp ≤ 0x30ff) ||
  decide (0xff01 ≤ cp ∧ cp ≤ 0xff60) ||
  decide (0xac00 ≤ cp ∧ cp ≤ 0xd7af)

/-- `estimateCharWidth`: wide ≈ 1.0, ASCII ≈ 0.55, other narrow ≈ 0.7. -/
def estimateCharWidth (char : Char) (fontSize : ℚ) : ℚ :=
  if isCjk char then fontSize * 1
  else if char.toNat < 0x80 then fontSize * (55/100)
  else fontSize * (7/10)

def estimateTextWidth (text : String) (fontSize : ℚ) : ℚ :=
  (text.data.map (fun char => estimateCharWidth char fontSize)).sum

/-- One character step of the renderer's private `tokenize`
(src/svg/components.ts): state is (emitted tokens, current run). -/
def tokenizeTextStep (st : List String × String) (char : Char) : List String × String :=
  if isCjk char then
    if st.2 = "" then (st.1 ++ [String.singleton char], "")
    else (st.1 ++ [st.2, String.singleton char], "")
  else
    let current := st.2.push char
    if char = ' ' then (st.1 ++ [current], "") else (st.1, current)

/-- The renderer's private `tokenize` (src/svg/components.ts), named
`tokenizeText` here to avoid clashing with the lexer's `tokenize`:
wide glyphs become single tokens, other runs break after spaces. -/
def tokenizeText (text : String) : List String :=
  let res := text.data.foldl tokenizeTextStep ([], "")
  if res.2 = "" then res.1 else res.1 ++ [res.2]

/-- One step of the greedy packing loop in `wrapText`: state is
(closed lines, current line, current width). -/
def wrapStep (maxWidth fontSize : ℚ) (st : List String × String × ℚ) (token : String) :
    List String × String × ℚ :=
  let tokenWidth := estimateTextWidth token fontSize
  if st.2.2 + tokenWidth ≤ maxWidth then (st.1, st.2.1 ++ token, st.2.2 + tokenWidth)
  else if st.2.2 = 0 then
    -- Single token exceeds maxWidth — force-add to avoid infinite loop
    (st.1 ++ [token], st.2.1, st.2.2)
  else (st.1 ++ [st.2.1], token, tokenWidth)

/-- The per-hard-line body of `wrapText`: an empty hard line is preserved;
otherwise its tokens are packed greedily and a nonempty final line is
pushed. -/
def wrapHardLine (maxWidth fontSize : ℚ) (result : List String) (hardLine : String) :
    List String :=
  if hardLine = "" then result ++ [""]
  else
    let st := (tokenizeText hardLine).foldl (wrapStep maxWidth fontSize) (result, "", 0)
    if st.2.1 = "" then st.1 else st.1 ++ [st.2.1]

/-- `wrapText`: split on hard line breaks, then greedily pack tokens. -/
def wrapText (text : String) (maxWidth fontSize : ℚ) : List String :=
  ((splitOn1 '\n' text.data).map List.asString).foldl (wrapHardLine maxWidth fontSize) []

/-- The `while (fontSize >= MIN_FONT_SIZE)` loop of `fitTextToRect`.  The
font size drops by 2 per iteration, so the fuel supplied by `fitTextToRect`
(⌈themeFontSize⌉ + 1 when positive) never runs out; the base case coincides
with the loop's fall-through result. -/
def fitLoop (text : String) (availableWidth availableHeight : ℚ) :
    Nat → ℚ → List String × ℚ
  | 0, _ => (wrapText text availableWidth MIN_FONT_SIZE, MIN_FONT_SIZE)
  | fuel + 1, fontSize =>
    if MIN_FONT_SIZE ≤ fontSize then
      let lines := wrapText text availableWidth fontSize
      if (lines.length : ℚ) * fontSize * LINE_HEIGHT ≤ availableHeight then (lines, fontSize)
      else fitLoop text availableWidth availableHeight fuel (fontSize - 2)
    else (wrapText text availableWidth MIN_FONT_SIZE, MIN_FONT_SIZE)

/-- `fitTextToRect`. -/
def fitTextToRect (text : String) (cellWidth cellHeight padding themeFontSize : ℚ) :
    List String × ℚ :=
  let availableWidth := cellWidth - padding * 2
  let availableHeight := cellHeight - padding * 2
  fitLoop text availableWidth availableHeight ((max themeFontSize 0).ceil.toNat + 1) themeFontSize

def getTextAnchor (align : String) : String :=
  if align = "center" then "middle"
  else if align = "right" then "end"
  else "start"

def getTextX (rect : LayoutRect) (align : String) : ℚ :=
  let padding := rect.padding
  if align = "center" then rect.x + rect.width / 2
  else if align = "right" then rect.x + rect.width - padding
  else rect.x + padding

/-- `renderMultilineText` (the `lineHeight` parameter is always left at its
default by the callers). -/
def renderMultilineText (lines : List String) (x baseY fontSize : ℚ)
    (textAnchor fill : String) : String :=
  match lines with
  | [line] =>
    "<text x=\"" ++ numStr x ++ "\" y=\"" ++ numStr baseY ++ "\" font-size=\""
      ++ numStr fontSize ++ "\" text-anchor=\"" ++ textAnchor ++ "\" fill=\"" ++ fill
      ++ "\">" ++ escapeXml line ++ "</text>"
  | _ =>
    let lineSpacing := fontSize * LINE_HEIGHT
    let totalHeight := ((lines.length : ℚ) - 1) * lineSpacing
    let startY := baseY - totalHeight / 2
    let tspans := String.join (lines.enum.map (fun p =>
      "<tspan x=\"" ++ numStr x ++ "\" y=\"" ++ numStr (startY + (p.1 : ℚ) * lineSpacing)
        ++ "\">" ++ escapeXml p.2 ++ "</tspan>"))
    "<text font-size=\"" ++ numStr fontSize ++ "\" text-anchor=\"" ++ textAnchor
      ++ "\" fill=\"" ++ fill ++ "\">" ++ tspans ++ "</text>"

/-- `renderTxt`. -/
def renderTxt (component : Component) (rect : LayoutRect) (theme : Theme) : String :=
  let align := component.props.align.getD "left"
  let value := component.props.value.getD ""
  let bg := component.props.bg
  let border := component.props.border
  let fit := fitTextToRect value rect.width rect.height rect.padding theme.fontSize
  let lines := fit.1
  let fontSize := fit.2
  let textX := getTextX rect align
  let textY := rect.y + rect.height / 2 + fontSize / 3
  let parts : List String :=
    (if truthy bg || truthy border then
      let strokeAttr :=
        if truthy border then
          "stroke=\"" ++ border.getD "" ++ "\" stroke-width=\"" ++ numStr theme.strokeWidth ++ "\""
        else ""
      ["<rect x=\"" ++ numStr rect.x ++ "\" y=\"" ++ numStr rect.y ++ "\" width=\""
        ++ numStr rect.width ++ "\" height=\"" ++ numStr rect.height ++ "\" rx=\""
        ++ numStr theme.borderRadius ++ "\" fill=\"" ++ bg.getD "transparent" ++ "\" "
        ++ strokeAttr ++ "/>"]
    else []) ++
    [renderMultilineText lines textX textY fontSize (getTextAnchor align) "black"]
  match parts with
  | [p] => p
  | _ => "<g>\n  " ++ String.intercalate "\n  " parts ++ "\n</g>"

/-- `renderBox`. -/
def renderBox (component : Component) (rect : LayoutRect) (theme : Theme) : String :=
  let fill := component.props.bg.getD theme.defaultBg
  let border := component.props.border
  let strokeAttr :=
    if truthy border then
      "stroke=\"" ++ border.getD "" ++ "\" stroke-width=\"" ++ numStr theme.strokeWidth ++ "\""
    else ""
  "<rect x=\"" ++ numStr rect.x ++ "\" y=\"" ++ numStr rect.y ++ "\" width=\""
    ++ numStr rect.width ++ "\" height=\"" ++ numStr rect.height ++ "\" rx=\""
    ++ numStr theme.borderRadius ++ "\" fill=\"" ++ fill ++ "\" " ++ strokeAttr ++ "/>"

/-- `renderBtn`. -/
def renderBtn (component : Component) (rect : LayoutRect) (theme : Theme) : String :=
  let value := component.props.value.getD ""
  let fill := component.props.bg.getD theme.defaultBg
  let border := component.props.border
  let strokeAttr :=
    if truthy border then
      "stroke=\"" ++ border.getD "" ++ "\" stroke-width=\"" ++ numStr theme.strokeWidth ++ "\""
    else ""
  let fit := fitTextToRect value rect.width rect.height rect.padding theme.fontSize
  let lines := fit.1
  let fontSize := fit.2
  let textX := rect.x + rect.width / 2
  let textY := rect.y + rect.height / 2 + fontSize / 3
  let textElement := renderMultilineText lines textX textY fontSize "middle" "black"
  "<g>\n  <rect x=\"" ++ numStr rect.x ++ "\" y=\"" ++ numStr rect.y ++ "\" width=\""
    ++ numStr rect.width ++ "\" height=\"" ++ numStr rect.height ++ "\" rx=\""
    ++ numStr theme.borderRadius ++ "\" fill=\"" ++ fill ++ "\" " ++ strokeAttr
    ++ "/>\n  " ++ textElement ++ "\n</g>"

/-- `renderInput`. -/
def renderInput (component : Component) (rect : LayoutRect) (theme : Theme) : String :=
  let label := component.props.label.getD ""
  let fill := component.props.bg.getD "white"
  let border := component.props.border.getD "black"
  let padding := rect.padding
  let labelY := rect.y + padding + theme.fontSize / 2
  let inputY := rect.y + padding + theme.fontSize + 8
  let inputHeight := rect.height - padding * 2 - theme.fontSize - 8
  "<g>\n  <text x=\"" ++ numStr (rect.x + padding) ++ "\" y=\"" ++ numStr labelY
    ++ "\" font-size=\"" ++ numStr (theme.fontSize * (3/4)) ++ "\" fill=\"black\">"
    ++ escapeXml label ++ "</text>\n  <rect x=\"" ++ numStr (rect.x + padding)
    ++ "\" y=\"" ++ numStr inputY ++ "\" width=\"" ++ numStr (rect.width - padding * 2)
    ++ "\" height=\"" ++ numStr (max inputHeight 40) ++ "\" rx=\""
    ++ numStr (theme.borderRadius / 2) ++ "\" fill=\"" ++ fill ++ "\" stroke=\"" ++ border
    ++ "\" stroke-width=\"" ++ numStr theme.strokeWidth ++ "\"/>\n</g>"

structure RenderContext where
  basePath : Option String
deriving DecidableEq, Repr

/-- `renderImgPlaceholder`. -/
def renderImgPlaceholder (rect : LayoutRect) (alt : String) (theme : Theme)
    (bg border : Option String) : String :=
  let textX := rect.x + rect.width / 2
  let textY := rect.y + rect.height / 2 + theme.fontSize / 3
  let fill := bg.getD "#f0f0f0"
  let stroke := border.getD "#ccc"
  "<g>\n  <rect x=\"" ++ numStr rect.x ++ "\" y=\"" ++ numStr rect.y ++ "\" width=\""
    ++ numStr rect.width ++ "\" height=\"" ++ numStr rect.height ++ "\" rx=\""
    ++ numStr theme.borderRadius ++ "\" fill=\"" ++ fill ++ "\" stroke=\"" ++ stroke
    ++ "\" stroke-width=\"" ++ numStr theme.strokeWidth ++ "\"/>\n  <text x=\""
    ++ numStr textX ++ "\" y=\"" ++ numStr textY ++ "\" font-size=\""
    ++ numStr theme.fontSize ++ "\" text-anchor=\"middle\" fill=\"#666\">[IMG: "
    ++ escapeXml alt ++ "]</text>\n</g>"

/-- `renderImg`.  The injected `load` capability stands for
`resolveImagePath` plus `loadImageAsDataUri` (src/utils/image.ts, file-system
access declared out of scope); `none` models the `try` block throwing. -/
def renderImg (component : Component) (rect : LayoutRect) (theme : Theme)
    (context : Option RenderContext) (load : String → String → Option String) : String :=
  let src := component.props.src
  let alt := component.props.alt
  let altText := alt.getD (src.getD "image")
  let basePath := context.bind (fun c => c.basePath)
  -- `if (!src || !context?.basePath)`
  if truthy src = false ∨ truthy basePath = false then
    renderImgPlaceholder rect altText theme component.props.bg component.props.border
  else
    match load (src.getD "") (basePath.getD "") with
    | some dataUri =>
      "<image x=\"" ++ numStr rect.x ++ "\" y=\"" ++ numStr rect.y ++ "\" width=\""
        ++ numStr rect.width ++ "\" height=\"" ++ numStr rect.height ++ "\" href=\""
        ++ dataUri ++ "\" preserveAspectRatio=\"xMidYMid meet\"/>"
    | none =>
      -- Fallback to placeholder on error
      renderImgPlaceholder rect altText theme component.props.bg component.props.border

/-- `renderComponent` (themed generator, src/svg/generator.ts). -/
def renderComponent (component : Component) (rect : LayoutRect) (theme : Theme)
    (context : Option RenderContext) (load : String → String → Option String) : String :=
  match component.type with
  | .txt => renderTxt component rect theme
  | .box => renderBox component rect theme
  | .btn => renderBtn component rect theme
  | .input => renderInput component rect theme
  | .img => renderImg component rect theme context load

/-- `generateSvg` (themed generator, src/svg/generator.ts).  The only throw
on its paths is `getTheme`; everything after it is a total computation. -/
def generateSvg (doc : KuiDocument) (basePath : Option String)
    (load : String → String → Option String) : Except String String :=
  let canvas := calculateCanvasSize doc.metadata.ratio
  let config : LayoutConfig :=
    { gap := ((doc.metadata.gap.getD 0 : Nat) : ℚ)
    , padding := ((doc.metadata.padding.getD 16 : Nat) : ℚ) }
  match getTheme doc.metadata.theme with
  | .error e => .error e
  | .ok theme =>
    let context : RenderContext := { basePath := basePath }
    let gridSizes : GridSizes :=
      { colSizes := calculateSizes canvas.width doc.metadata.grid.1 config.gap doc.metadata.colWidths
      , rowSizes := calculateSizes canvas.height doc.metadata.grid.2 config.gap doc.metadata.rowHeights }
    let componentsSvg := String.intercalate "\n  " (doc.components.map (fun component =>
      let rect := calculateCellRect component.range doc.metadata.grid canvas config
        (component.props.padding.map (fun n => (n : ℚ))) (some gridSizes)
      renderComponent component rect theme (some context) load))
    .ok ("<?xml version=\"1.0\" encoding=\"UTF-8\"?>\n<svg xmlns=\"http://www.w3.org/2000/svg\" width=\""
      ++ numStr canvas.width ++ "\" height=\"" ++ numStr canvas.height
      ++ "\" viewBox=\"0 0 " ++ numStr canvas.width ++ " " ++ numStr canvas.height
      ++ "\">\n  <rect width=\"" ++ numStr canvas.width ++ "\" height=\""
      ++ numStr canvas.height ++ "\" fill=\"white\"/>\n  " ++ componentsSvg ++ "\n</svg>")

/-! ## Derived predicates used by the verified properties -/

/-- The component's range lies within `[0, cols) × [0, rows)`. -/
def withinGrid (range : CellRange) (grid : Nat × Nat) : Bool :=
  decide (range.start.col < grid.1) && decide (range.stop.col < grid.1) &&
  decide (range.start.row < grid.2) && decide (range.stop.row < grid.2)

/-- Every component's range lies within the grid recorded in the document's
metadata. -/
def allWithin (doc : KuiDocument) : Bool :=
  doc.components.all (fun c => withinGrid c.range doc.metadata.grid)

/-- No two distinct components of the list have overlapping cell ranges. -/
def pairwiseNoOverlap : List Component → Bool
  | [] => true
  | c :: rest => rest.all (fun b => !(rangesOverlap c.range b.range)) && pairwiseNoOverlap rest

/-- Two adjacent NEWLINE tokens occur somewhere in the list. -/
def hasConsecNewlines : List Token → Bool
  | a :: b :: rest =>
    (decide (a.type = .NEWLINE) && decide (b.type = .NEWLINE)) || hasConsecNewlines (b :: rest)
  | _ => false

/-- Three consecutive tokens spelling a grid declaration: an identifier
reading `grid` (case-insensitively, as the main loop lowercases the name),
a colon, and a grid-dimension literal.  `expect` in the source never skips
newline tokens, so the declaration the main loop consumes when it updates
`metadata.grid` is exactly this contiguous shape; and since neither
`parseProps` nor `parseColors` ever accepts a GRID token as a value, this
pattern can occur in an accepted token stream only as a top-level grid
declaration. -/
def isGridDeclAt : List Token → Bool
  | t1 :: t2 :: t3 :: _ =>
    decide (t1.type = .IDENTIFIER) && decide (toLowerStr t1.value = "grid") &&
    decide (t2.type = .COLON) && decide (t3.type = .GRID)
  | _ => false

/-- No grid declaration starts anywhere in the list. -/
def noGridDecl : List Token → Bool
  | [] => true
  | t :: rest => !(isGridDeclAt (t :: rest)) && noGridDecl rest

/-- No grid declaration starts after the first cell-reference / cell-range
token, i.e. after the start of the first component declaration. -/
def noGridDeclAfterCell : List Token → Bool
  | [] => true
  | t :: rest =>
    if t.type = .CELL_REF ∨ t.type = .CELL_RANGE then noGridDecl rest
    else noGridDeclAfterCell rest

/-! ## Helper lemmas -/

/-- When every load attempt fails, `renderImg` produces the placeholder,
labelled by the alt → src → "image" resolution chain. -/
theorem renderImg_load_fail (c : Component) (rect : LayoutRect) (theme : Theme)
    (context : Option RenderContext) (load : String → String → Option String)
    (hload : ∀ s bp, load s bp = none) :
    renderImg c rect theme context load =
      renderImgPlaceholder rect (c.props.alt.getD (c.props.src.getD "image")) theme
        c.props.bg c.props.border := by
  simp only [renderImg]
  split
  · rfl
  · rw [hload]

/-- Unfolding `splitOnDots` on a cons whose head is not a dot. -/
theorem splitOnDots_cons_ne (c : Char) (rest : List Char) (hc : c ≠ '.') :
    splitOnDots (c :: rest) =
      match splitOnDots rest with
      | [] => [[c]]
      | h :: t => (c :: h) :: t := by
  rw [splitOnDots.eq_def]
  split
  · rename_i heq
    exact absurd heq (by simp)
  · first
    | exact absurd rfl hc
    | · rename_i heq
        injection heq with h1 h2
        exact absurd h1 hc
  · rename_i heq
    injection heq with h1 h2
    subst h1 h2
    rfl

/-- `split('..')` of a string that contains no dot is the whole string. -/
theorem splitOnDots_no_dot (l : List Char) (h : '.' ∉ l) : splitOnDots l = [l] := by
  induction l with
  | nil => rfl
  | cons c rest ih =>
    have hc : c ≠ '.' := fun hh => h (hh ▸ List.mem_cons_self _ _)
    rw [splitOnDots_cons_ne c rest hc, ih (fun hh => h (List.mem_cons_of_mem _ hh))]

/-- A string accepted by `parseCellRef` contains no dot: every character's
upper-case image is an A–Z letter or a digit. -/
theorem parseCellRef_no_dot (s : String) (c : CellCoord)
    (h : parseCellRef s = .ok c) : '.' ∉ s.data := by
  intro hdot
  have hdot' : ('.' : Char) ∈ s.data.map Char.toUpper := by
    have hmem : Char.toUpper '.' ∈ s.data.map Char.toUpper := List.mem_map_of_mem _ hdot
    have hup : Char.toUpper '.' = '.' := by decide
    rwa [hup] at hmem
  unfold parseCellRef at h
  rcases hu : s.data.map Char.toUpper with _ | ⟨u, rest⟩
  · rw [hu] at h
    exact absurd h (by simp)
  · rw [hu] at h
    split at h
    · rename_i c2 rest2 hcons
      injection hcons with hc1 hc2
      subst hc1
      subst hc2
      split at h
      · rename_i hcond
        simp only [Bool.and_eq_true, decide_eq_true_eq, Bool.not_eq_true',
          List.all_eq_true] at hcond
        rw [hu] at hdot'
        rcases List.mem_cons.mp hdot' with hh | hh
        · rw [← hh] at hcond
          exact absurd hcond.1.1 (by decide)
        · exact absurd (hcond.2.2 _ hh) (by decide)
      · exact absurd h (by simp)
    · exact absurd h (by simp)

/-! ### Text-fitting lemmas -/

theorem string_ne_empty_iff (s : String) : s ≠ "" ↔ s.data ≠ [] := by
  cases s
  simp [String.ext_iff]

theorem push_ne_empty (s : String) (c : Char) : s.push c ≠ "" := by
  simp [String.ext_iff, String.push]

theorem append_ne_empty_right (s t : String) (ht : t ≠ "") : s ++ t ≠ "" := by
  rw [string_ne_empty_iff] at ht ⊢
  simp only [String.data_append]
  exact fun hh => ht (List.append_eq_nil.mp hh).2

theorem singleton_ne_empty (c : Char) : String.singleton c ≠ "" := by
  simp [String.ext_iff, String.singleton]

/-- The token-accumulator invariant of `tokenizeTextStep`: emitted tokens
stay nonempty. -/
theorem tokenizeTextStep_inv (st : List String × String) (char : Char)
    (h : ∀ t ∈ st.1, t ≠ "") : ∀ t ∈ (tokenizeTextStep st char).1, t ≠ "" := by
  unfold tokenizeTextStep
  split
  · split
    · intro t ht
      rcases List.mem_append.mp ht with hh | hh
      · exact h t hh
      · simp only [List.mem_singleton] at hh
        exact hh ▸ singleton_ne_empty char
    · rename_i hcur
      intro t ht
      rcases List.mem_append.mp ht with hh | hh
      · exact h t hh
      · rcases List.mem_cons.mp hh with hh2 | hh2
        · exact hh2 ▸ hcur
        · simp only [List.mem_singleton] at hh2
          exact hh2 ▸ singleton_ne_empty char
  · split
    · intro t ht
      rcases List.mem_append.mp ht with hh | hh
      · exact h t hh
      · simp only [List.mem_singleton] at hh
        exact hh ▸ push_ne_empty _ _
    · exact h

theorem tokenizeTextFold_inv (l : List Char) :
    ∀ (st : List String × String), (∀ t ∈ st.1, t ≠ "") →
      ∀ t ∈ (l.foldl tokenizeTextStep st).1, t ≠ "" := by
  induction l with
  | nil => intro st h; exact h
  | cons c rest ih =>
    intro st h
    exact ih (tokenizeTextStep st c) (tokenizeTextStep_inv st c h)

/-- Every token produced by the renderer's tokenizer is nonempty. -/
theorem tokenizeText_ne_empty (text : String) :
    ∀ t ∈ tokenizeText text, t ≠ "" := by
  unfold tokenizeText
  intro t ht
  have hfold := tokenizeTextFold_inv text.data ([], "") (by simp)
  dsimp only at ht
  split at ht
  · exact hfold t ht
  · rename_i hcur
    rcases List.mem_append.mp ht with hh | hh
    · exact hfold t hh
    · simp only [List.mem_singleton] at hh
      exact hh ▸ hcur

/-- Each glyph's estimated width is positive for a positive font size. -/
theorem estimateCharWidth_pos (c : Char) (fontSize : ℚ) (h : 0 < fontSize) :
    0 < estimateCharWidth c fontSize := by
  unfold estimateCharWidth
  split
  · linarith
  · split <;> linarith

/-- A nonempty token has positive estimated width for a positive font size. -/
theorem estimateTextWidth_pos (t : String) (fontSize : ℚ) (ht : t ≠ "")
    (h : 0 < fontSize) : 0 < estimateTextWidth t fontSize := by
  unfold estimateTextWidth
  rcases hd : t.data with _ | ⟨c, rest⟩
  · exact absurd hd ((string_ne_empty_iff t).mp ht)
  · simp only [hd, List.map_cons, List.sum_cons]
    have h1 : 0 < estimateCharWidth c fontSize := estimateCharWidth_pos c fontSize h
    have h2 : 0 ≤ (rest.map (fun char => estimateCharWidth char fontSize)).sum := by
      apply List.sum_nonneg
      intro x hx
      rcases List.mem_map.mp hx with ⟨ch, _, hch⟩
      exact hch ▸ le_of_lt (estimateCharWidth_pos ch fontSize h)
    linarith

theorem estimateTextWidth_nonneg (t : String) (fontSize : ℚ) (h : 0 < fontSize) :
    0 ≤ estimateTextWidth t fontSize := by
  unfold estimateTextWidth
  apply List.sum_nonneg
  intro x hx
  rcases List.mem_map.mp hx with ⟨ch, _, hch⟩
  exact hch ▸ le_of_lt (estimateCharWidth_pos ch fontSize h)

/-- The greedy-wrapping state is well formed: the current width is zero
exactly when the current line is empty, and widths are nonnegative. -/
def WfWrapState (st : List String × String × ℚ) : Prop :=
  (st.2.2 = 0 ↔ st.2.1 = "") ∧ 0 ≤ st.2.2

/-- Dominance between two greedy states: fewer closed lines, or equally
many with no larger current width.  Running the greedy loop with a larger
wrap width preserves dominance. -/
def WrapDom (st1 st2 : List String × String × ℚ) : Prop :=
  st1.1.length < st2.1.length ∨
  (st1.1.length = st2.1.length ∧ st1.2.2 ≤ st2.2.2)

theorem wrapStep_wf (maxWidth fontSize : ℚ) (st : List String × String × ℚ)
    (token : String) (htok : token ≠ "") (hfs : 0 < fontSize)
    (hwf : WfWrapState st) : WfWrapState (wrapStep maxWidth fontSize st token) := by
  have htw : 0 < estimateTextWidth token fontSize := estimateTextWidth_pos _ _ htok hfs
  unfold wrapStep
  dsimp only
  split
  · constructor
    · apply iff_of_false
      · show ¬(st.2.2 + estimateTextWidth token fontSize = 0)
        intro h0
        linarith [hwf.2]
      · exact append_ne_empty_right _ _ htok
    · show 0 ≤ st.2.2 + estimateTextWidth token fontSize
      linarith [hwf.2]
  · split
    · exact ⟨hwf.1, hwf.2⟩
    · constructor
      · apply iff_of_false
        · show ¬(estimateTextWidth token fontSize = 0)
          intro h0
          linarith
        · exact htok
      · show 0 ≤ estimateTextWidth token fontSize
        linarith

theorem wrapStep_dom (W1 W2 fontSize : ℚ) (hW : W2 ≤ W1) (token : String)
    (htok : token ≠ "") (hfs : 0 < fontSize) (st1 st2 : List String × String × ℚ)
    (h1 : WfWrapState st1) (h2 : WfWrapState st2) (hdom : WrapDom st1 st2) :
    WrapDom (wrapStep W1 fontSize st1 token) (wrapStep W2 fontSize st2 token) := by
  have htw : 0 < estimateTextWidth token fontSize := estimateTextWidth_pos _ _ htok hfs
  unfold wrapStep
  dsimp only
  by_cases hj1 : st1.2.2 + estimateTextWidth token fontSize ≤ W1
  · rw [if_pos hj1]
    by_cases hj2 : st2.2.2 + estimateTextWidth token fontSize ≤ W2
    · rw [if_pos hj2]
      rcases hdom with hlt | ⟨heq, hle⟩
      · exact Or.inl hlt
      · exact Or.inr ⟨heq, by dsimp only; linarith⟩
    · rw [if_neg hj2]
      by_cases hz2 : st2.2.2 = 0
      · rw [if_pos hz2]
        refine Or.inl ?_
        simp only [List.length_append, List.length_singleton]
        rcases hdom with hlt | ⟨heq, _⟩ <;> omega
      · rw [if_neg hz2]
        refine Or.inl ?_
        simp only [List.length_append, List.length_singleton]
        rcases hdom with hlt | ⟨heq, _⟩ <;> omega
  · push_neg at hj1
    rw [if_neg (by intro hh; linarith)]
    by_cases hz1 : st1.2.2 = 0
    · rw [if_pos hz1]
      by_cases hj2 : st2.2.2 + estimateTextWidth token fontSize ≤ W2
      · rw [if_pos hj2]
        rcases hdom with hlt | ⟨heq, hle⟩
        · rcases Nat.lt_or_ge (st1.1.length + 1) st2.1.length with hc | hc
          · refine Or.inl ?_
            simpa only [List.length_append, List.length_singleton] using hc
          · have hceq : st1.1.length + 1 = st2.1.length :=
              Nat.le_antisymm (Nat.succ_le_of_lt hlt) hc
            refine Or.inr ⟨?_, ?_⟩
            · simpa only [List.length_append, List.length_singleton] using hceq
            · dsimp only
              linarith [h2.2]
        · exact absurd hj2 (by intro hh; rw [hz1] at hj1; linarith [h2.2])
      · rw [if_neg hj2]
        by_cases hz2 : st2.2.2 = 0
        · rw [if_pos hz2]
          rcases hdom with hlt | ⟨heq, hle⟩
          · refine Or.inl ?_
            simp only [List.length_append, List.length_singleton]
            omega
          · exact Or.inr ⟨by simp only [List.length_append, List.length_singleton]; omega,
              by dsimp only; linarith⟩
        · rw [if_neg hz2]
          rcases hdom with hlt | ⟨heq, hle⟩
          · refine Or.inl ?_
            simp only [List.length_append, List.length_singleton]
            omega
          · refine Or.inr ⟨by simp only [List.length_append, List.length_singleton]; omega, ?_⟩
            dsimp only
            rw [hz1]
            linarith
    · rw [if_neg hz1]
      by_cases hj2 : st2.2.2 + estimateTextWidth token fontSize ≤ W2
      · rw [if_pos hj2]
        rcases hdom with hlt | ⟨heq, hle⟩
        · rcases Nat.lt_or_ge (st1.1.length + 1) st2.1.length with hc | hc
          · refine Or.inl ?_
            simpa only [List.length_append, List.length_singleton] using hc
          · have hceq : st1.1.length + 1 = st2.1.length :=
              Nat.le_antisymm (Nat.succ_le_of_lt hlt) hc
            refine Or.inr ⟨?_, ?_⟩
            · simpa only [List.length_append, List.length_singleton] using hceq
            · dsimp only
              linarith [h2.2]
        · exact absurd hj2 (by intro hh; linarith)
      · rw [if_neg hj2]
        by_cases hz2 : st2.2.2 = 0
        · rw [if_pos hz2]
          rcases hdom with hlt | ⟨heq, hle⟩
          · refine Or.inl ?_
            simp only [List.length_append, List.length_singleton]
            omega
          · have h1pos : 0 < st1.2.2 := lt_of_le_of_ne h1.2 (Ne.symm hz1)
            rw [hz2] at hle
            linarith
        · rw [if_neg hz2]
          rcases hdom with hlt | ⟨heq, hle⟩
          · refine Or.inl ?_
            simp only [List.length_append, List.length_singleton]
            omega
          · exact Or.inr ⟨by simp only [List.length_append, List.length_singleton]; omega,
              le_refl _⟩

theorem wrapFold_wf (maxWidth fontSize : ℚ) (hfs : 0 < fontSize) :
    ∀ (toks : List String), (∀ t ∈ toks, t ≠ "") →
      ∀ st, WfWrapState st → WfWrapState (toks.foldl (wrapStep maxWidth fontSize) st)
  | [], _, _, h => h
  | tok :: rest, htoks, st, h =>
    wrapFold_wf maxWidth fontSize hfs rest
      (fun t ht => htoks t (List.mem_cons_of_mem _ ht))
      (wrapStep maxWidth fontSize st tok)
      (wrapStep_wf maxWidth fontSize st tok (htoks tok (List.mem_cons_self _ _)) hfs h)

theorem wrapFold_dom (W1 W2 fontSize : ℚ) (hW : W2 ≤ W1) (hfs : 0 < fontSize) :
    ∀ (toks : List String), (∀ t ∈ toks, t ≠ "") →
      ∀ st1 st2, WfWrapState st1 → WfWrapState st2 → WrapDom st1 st2 →
      WrapDom (toks.foldl (wrapStep W1 fontSize) st1) (toks.foldl (wrapStep W2 fontSize) st2)
  | [], _, _, _, _, _, hdom => hdom
  | tok :: rest, htoks, st1, st2, h1, h2, hdom =>
    wrapFold_dom W1 W2 fontSize hW hfs rest
      (fun t ht => htoks t (List.mem_cons_of_mem _ ht))
      (wrapStep W1 fontSize st1 tok) (wrapStep W2 fontSize st2 tok)
      (wrapStep_wf W1 fontSize st1 tok (htoks tok (List.mem_cons_self _ _)) hfs h1)
      (wrapStep_wf W2 fontSize st2 tok (htoks tok (List.mem_cons_self _ _)) hfs h2)
      (wrapStep_dom W1 W2 fontSize hW tok (htoks tok (List.mem_cons_self _ _)) hfs st1 st2
        h1 h2 hdom)

/-- The number of lines a greedy state yields once its pending line is
flushed. -/
def wrapLineCount (st : List String × String × ℚ) : Nat :=
  st.1.length + (if st.2.1 = "" then 0 else 1)

theorem wrapLineCount_le (st1 st2 : List String × String × ℚ)
    (h1 : WfWrapState st1) (h2 : WfWrapState st2) (hdom : WrapDom st1 st2) :
    wrapLineCount st1 ≤ wrapLineCount st2 := by
  unfold wrapLineCount
  rcases hdom with hlt | ⟨heq, hle⟩
  · by_cases hc1 : st1.2.1 = "" <;> by_cases hc2 : st2.2.1 = "" <;>
      simp [hc1, hc2] <;> omega
  · by_cases hc1 : st1.2.1 = "" <;> by_cases hc2 : st2.2.1 = ""
    · simp [hc1, hc2]; omega
    · simp [hc1, hc2]; omega
    · exfalso
      have hz2 : st2.2.2 = 0 := h2.1.mpr hc2
      have hz1 : st1.2.2 ≠ 0 := fun hh => hc1 (h1.1.mp hh)
      have h1pos : 0 < st1.2.2 := lt_of_le_of_ne h1.2 (Ne.symm hz1)
      rw [hz2] at hle
      linarith
    · simp [hc1, hc2]; omega

/-- Flushing a greedy state yields `wrapLineCount` lines. -/
theorem wrapFlush_length (st : List String × String × ℚ) :
    (if st.2.1 = "" then st.1 else st.1 ++ [st.2.1]).length = wrapLineCount st := by
  unfold wrapLineCount
  split <;> simp_all

/-- One hard line of greedy wrapping preserves the ordering of accumulated
line counts between a wider and a narrower wrap width. -/
theorem wrapHardLine_length_le (W1 W2 fontSize : ℚ) (hW : W2 ≤ W1) (hfs : 0 < fontSize)
    (hardLine : String) (acc1 acc2 : List String) (hlen : acc1.length ≤ acc2.length) :
    (wrapHardLine W1 fontSize acc1 hardLine).length ≤
      (wrapHardLine W2 fontSize acc2 hardLine).length := by
  unfold wrapHardLine
  split
  · simp only [List.length_append, List.length_singleton]
    omega
  · dsimp only
    rw [wrapFlush_length, wrapFlush_length]
    have hwf1 : WfWrapState ((acc1, "", 0) : List String × String × ℚ) := ⟨by simp, le_refl 0⟩
    have hwf2 : WfWrapState ((acc2, "", 0) : List String × String × ℚ) := ⟨by simp, le_refl 0⟩
    have hdom : WrapDom ((acc1, "", 0) : List String × String × ℚ) (acc2, "", 0) := by
      rcases Nat.lt_or_ge acc1.length acc2.length with hc | hc
      · exact Or.inl hc
      · exact Or.inr ⟨Nat.le_antisymm hlen hc, le_refl 0⟩
    have htoks := tokenizeText_ne_empty hardLine
    exact wrapLineCount_le _ _
      (wrapFold_wf W1 fontSize hfs _ htoks _ hwf1)
      (wrapFold_wf W2 fontSize hfs _ htoks _ hwf2)
      (wrapFold_dom W1 W2 fontSize hW hfs _ htoks _ _ hwf1 hwf2 hdom)

theorem wrapLines_length_le (W1 W2 fontSize : ℚ) (hW : W2 ≤ W1) (hfs : 0 < fontSize) :
    ∀ (lines : List String) (acc1 acc2 : List String), acc1.length ≤ acc2.length →
      (lines.foldl (wrapHardLine W1 fontSize) acc1).length ≤
        (lines.foldl (wrapHardLine W2 fontSize) acc2).length
  | [], _, _, hlen => hlen
  | hl :: rest, acc1, acc2, hlen =>
    wrapLines_length_le W1 W2 fontSize hW hfs rest _ _
      (wrapHardLine_length_le W1 W2 fontSize hW hfs hl acc1 acc2 hlen)

/-- Greedy wrapping at a wider width never produces more lines. -/
theorem wrapText_length_le (text : String) (W1 W2 fontSize : ℚ) (hW : W2 ≤ W1)
    (hfs : 0 < fontSize) :
    (wrapText text W1 fontSize).length ≤ (wrapText text W2 fontSize).length := by
  unfold wrapText
  exact wrapLines_length_le W1 W2 fontSize hW hfs _ [] [] (le_refl 0)

/-- The fitting loop never returns a font size below the floor of 8. -/
theorem fitLoop_ge_min (text : String) (availableWidth availableHeight : ℚ) :
    ∀ (fuel : Nat) (fontSize : ℚ),
      MIN_FONT_SIZE ≤ (fitLoop text availableWidth availableHeight fuel fontSize).2
  | 0, _ => le_refl _
  | fuel + 1, fontSize => by
    unfold fitLoop
    split
    · dsimp only
      split
      · rename_i hmin _
        exact hmin
      · exact fitLoop_ge_min text availableWidth availableHeight fuel (fontSize - 2)
    · exact le_refl _

/-- The fitting loop never returns more than the starting size (or the
floor). -/
theorem fitLoop_le_max (text : String) (availableWidth availableHeight : ℚ) :
    ∀ (fuel : Nat) (fontSize : ℚ),
      (fitLoop text availableWidth availableHeight fuel fontSize).2 ≤ max fontSize MIN_FONT_SIZE
  | 0, _ => le_max_right _ _
  | fuel + 1, fontSize => by
    unfold fitLoop
    split
    · dsimp only
      split
      · exact le_max_left _ _
      · exact le_trans
          (fitLoop_le_max text availableWidth availableHeight fuel (fontSize - 2))
          (max_le_max (by linarith) (le_refl _))
    · exact le_max_right _ _

/-- Shrinking the available rectangle never increases the font size the
fitting loop returns. -/
theorem fitLoop_mono (text : String) (w1 h1 w2 h2 : ℚ) (hw : w2 ≤ w1) (hh : h2 ≤ h1) :
    ∀ (fuel : Nat) (fontSize : ℚ),
      (fitLoop text w2 h2 fuel fontSize).2 ≤ (fitLoop text w1 h1 fuel fontSize).2
  | 0, _ => le_refl _
  | fuel + 1, fontSize => by
    unfold fitLoop
    by_cases hmin : MIN_FONT_SIZE ≤ fontSize
    · rw [if_pos hmin, if_pos hmin]
      dsimp only
      have hfs0 : 0 < fontSize := by
        have : (0 : ℚ) < MIN_FONT_SIZE := by norm_num [MIN_FONT_SIZE]
        linarith
      by_cases hfit2 : ((wrapText text w2 fontSize).length : ℚ) * fontSize * LINE_HEIGHT ≤ h2
      · rw [if_pos hfit2]
        have hlen : (wrapText text w1 fontSize).length ≤ (wrapText text w2 fontSize).length :=
          wrapText_length_le text w1 w2 fontSize hw hfs0
        have hfit1 : ((wrapText text w1 fontSize).length : ℚ) * fontSize * LINE_HEIGHT ≤ h1 := by
          have hcast : ((wrapText text w1 fontSize).length : ℚ) ≤
              ((wrapText text w2 fontSize).length : ℚ) := Nat.cast_le.mpr hlen
          have hlh : (0 : ℚ) ≤ fontSize * LINE_HEIGHT := by
            have : (0 : ℚ) < LINE_HEIGHT := by norm_num [LINE_HEIGHT]
            positivity
          calc ((wrapText text w1 fontSize).length : ℚ) * fontSize * LINE_HEIGHT
              = ((wrapText text w1 fontSize).length : ℚ) * (fontSize * LINE_HEIGHT) := by ring
            _ ≤ ((wrapText text w2 fontSize).length : ℚ) * (fontSize * LINE_HEIGHT) :=
                mul_le_mul_of_nonneg_right hcast hlh
            _ = ((wrapText text w2 fontSize).length : ℚ) * fontSize * LINE_HEIGHT := by ring
            _ ≤ h2 := hfit2
            _ ≤ h1 := hh
        rw [if_pos hfit1]
      · rw [if_neg hfit2]
        by_cases hfit1 : ((wrapText text w1 fontSize).length : ℚ) * fontSize * LINE_HEIGHT ≤ h1
        · rw [if_pos hfit1]
          show (fitLoop text w2 h2 fuel (fontSize - 2)).2 ≤ fontSize
          exact le_trans (fitLoop_le_max text w2 h2 fuel (fontSize - 2))
            (max_le (by linarith) hmin)
        · rw [if_neg hfit1]
          exact fitLoop_mono text w1 h1 w2 h2 hw hh fuel (fontSize - 2)
    · rw [if_neg hmin, if_neg hmin]

/-! ### Parser suffix and invariant lemmas -/

theorem expectT_ok_tail (ty : TokenType) (ts : List Token) (t : Token) (ts' : List Token)
    (h : expectT ty ts = .ok (t, ts')) : ts' = ts.tail := by
  unfold expectT at h
  dsimp only at h
  split at h
  · injection h with h
    injection h with _ h2
    exact h2.symm
  · exact absurd h (by simp)

theorem expectT_ok_cons (ty : TokenType) (hty : ty ≠ .EOF) (ts : List Token)
    (t : Token) (ts' : List Token) (h : expectT ty ts = .ok (t, ts')) :
    ts = t :: ts' ∧ t.type = ty := by
  unfold expectT at h
  dsimp only at h
  split at h
  · rename_i htype
    injection h with h
    injection h with h1 h2
    subst h1
    cases ts with
    | nil => exact absurd (htype ▸ rfl) hty
    | cons a rest => exact ⟨by simp [peekT] at h2 ⊢; simp [peekT, h2.symm], htype⟩
  · exact absurd h (by simp)

theorem dropNewlines_suffix (ts : List Token) : dropNewlines ts <:+ ts := by
  induction ts with
  | nil => exact List.suffix_refl _
  | cons t rest ih =>
    unfold dropNewlines
    split
    · exact ih.trans (List.suffix_cons t rest)
    · exact List.suffix_refl _

theorem parsePropsLoop_suffix :
    ∀ (fuel : Nat) (ts : List Token) (props : List (String × String))
      (props' : List (String × String)) (ts' : List Token),
      parsePropsLoop fuel ts props = .ok (props', ts') → ts' <:+ ts
  | 0, _, _, _, _, h => absurd h (by simp [parsePropsLoop])
  | fuel + 1, ts, props, props', ts', h => by
    unfold parsePropsLoop at h
    dsimp only at h
    split at h
    · injection h with h
      injection h with _ h2
      exact h2 ▸ List.suffix_refl _
    · split at h
      · injection h with h
        injection h with _ h2
        exact h2 ▸ dropNewlines_suffix ts
      · cases hkey : expectT .IDENTIFIER (dropNewlines ts) with
        | error e => rw [hkey] at h; exact absurd h (by simp)
        | ok keyres =>
          rw [hkey] at h
          obtain ⟨keyTok, ts2⟩ := keyres
          dsimp only at h
          cases hcolon : expectT .COLON ts2 with
          | error e => rw [hcolon] at h; exact absurd h (by simp)
          | ok colonres =>
            rw [hcolon] at h
            obtain ⟨ct, ts3⟩ := colonres
            dsimp only at h
            have hts2 : ts2 = (dropNewlines ts).tail := expectT_ok_tail _ _ _ _ hkey
            have hts3 : ts3 = ts2.tail := expectT_ok_tail _ _ _ _ hcolon
            have hchain : ts3.tail <:+ ts :=
              (List.tail_suffix ts3).trans (hts3 ▸ (List.tail_suffix ts2)) |>.trans
                (hts2 ▸ (List.tail_suffix (dropNewlines ts))) |>.trans (dropNewlines_suffix ts)
            split at h <;>
              first
                | exact absurd h (by simp)
                | (refine (parsePropsLoop_suffix fuel _ _ _ _ h).trans ?_
                   split
                   · exact ((dropNewlines_suffix _).trans (List.tail_suffix _)).trans
                       ((dropNewlines_suffix _).trans hchain)
                   · exact (dropNewlines_suffix _).trans hchain)

theorem parseProps_suffix (ts : List Token) (props' : List (String × String))
    (ts' : List Token) (h : parseProps ts = .ok (props', ts')) : ts' <:+ ts := by
  unfold parseProps at h
  cases hl : expectT .LBRACE ts with
  | error e => rw [hl] at h; exact absurd h (by simp)
  | ok lres =>
    rw [hl] at h
    obtain ⟨lt, ts1⟩ := lres
    dsimp only at h
    cases hloop : parsePropsLoop ((dropNewlines ts1).length + 1) (dropNewlines ts1) [] with
    | error e => rw [hloop] at h; exact absurd h (by simp)
    | ok loopres =>
      rw [hloop] at h
      obtain ⟨props2, ts2⟩ := loopres
      dsimp only at h
      cases hr : expectT .RBRACE ts2 with
      | error e => rw [hr] at h; exact absurd h (by simp)
      | ok rres =>
        rw [hr] at h
        obtain ⟨rt, ts3⟩ := rres
        dsimp only at h
        injection h with h
        injection h with _ h2
        subst h2
        have h1 : ts1 = ts.tail := expectT_ok_tail _ _ _ _ hl
        have h2 : ts2 <:+ dropNewlines ts1 := parsePropsLoop_suffix _ _ _ _ _ hloop
        have h3 : ts3 = ts2.tail := expectT_ok_tail _ _ _ _ hr
        exact (h3 ▸ List.tail_suffix ts2).trans <|
          (h2.trans (dropNewlines_suffix ts1)).trans (h1 ▸ List.tail_suffix ts)

theorem parseColorsLoop_suffix :
    ∀ (fuel : Nat) (ts : List Token) (colors : List (String × String))
      (colors' : List (String × String)) (ts' : List Token),
      parseColorsLoop fuel ts colors = .ok (colors', ts') → ts' <:+ ts
  | 0, _, _, _, _, h => absurd h (by simp [parseColorsLoop])
  | fuel + 1, ts, colors, colors', ts', h => by
    unfold parseColorsLoop at h
    dsimp only at h
    split at h
    · injection h with h
      injection h with _ h2
      exact h2 ▸ List.suffix_refl _
    · split at h
      · injection h with h
        injection h with _ h2
        exact h2 ▸ dropNewlines_suffix ts
      · cases hkey : expectT .IDENTIFIER (dropNewlines ts) with
        | error e => rw [hkey] at h; exact absurd h (by simp)
        | ok keyres =>
          rw [hkey] at h
          obtain ⟨keyTok, ts2⟩ := keyres
          dsimp only at h
          cases hcolon : expectT .COLON ts2 with
          | error e => rw [hcolon] at h; exact absurd h (by simp)
          | ok colonres =>
            rw [hcolon] at h
            obtain ⟨ct, ts3⟩ := colonres
            dsimp only at h
            have hts2 : ts2 = (dropNewlines ts).tail := expectT_ok_tail _ _ _ _ hkey
            have hts3 : ts3 = ts2.tail := expectT_ok_tail _ _ _ _ hcolon
            have hchain : ts3.tail <:+ ts :=
              (List.tail_suffix ts3).trans (hts3 ▸ (List.tail_suffix ts2)) |>.trans
                (hts2 ▸ (List.tail_suffix (dropNewlines ts))) |>.trans (dropNewlines_suffix ts)
            split at h <;>
              first
                | exact absurd h (by simp)
                | (refine (parseColorsLoop_suffix fuel _ _ _ _ h).trans ?_
                   split
                   · exact ((dropNewlines_suffix _).trans (List.tail_suffix _)).trans
                       ((dropNewlines_suffix _).trans hchain)
                   · exact (dropNewlines_suffix _).trans hchain)

theorem parseColors_suffix (ts : List Token) (colors' : List (String × String))
    (ts' : List Token) (h : parseColors ts = .ok (colors', ts')) : ts' <:+ ts := by
  unfold parseColors at h
  cases hl : expectT .LBRACE ts with
  | error e => rw [hl] at h; exact absurd h (by simp)
  | ok lres =>
    rw [hl] at h
    obtain ⟨lt, ts1⟩ := lres
    dsimp only at h
    cases hloop : parseColorsLoop ((dropNewlines ts1).length + 1) (dropNewlines ts1) [] with
    | error e => rw [hloop] at h; exact absurd h (by simp)
    | ok loopres =>
      rw [hloop] at h
      obtain ⟨colors2, ts2⟩ := loopres
      dsimp only at h
      cases hr : expectT .RBRACE ts2 with
      | error e => rw [hr] at h; exact absurd h (by simp)
      | ok rres =>
        rw [hr] at h
        obtain ⟨rt, ts3⟩ := rres
        dsimp only at h
        injection h with h
        injection h with _ h2
        subst h2
        have h1 : ts1 = ts.tail := expectT_ok_tail _ _ _ _ hl
        have h2 : ts2 <:+ dropNewlines ts1 := parseColorsLoop_suffix _ _ _ _ _ hloop
        have h3 : ts3 = ts2.tail := expectT_ok_tail _ _ _ _ hr
        exact (h3 ▸ List.tail_suffix ts2).trans <|
          (h2.trans (dropNewlines_suffix ts1)).trans (h1 ▸ List.tail_suffix ts)

theorem parseComponent_suffix (ct : Token) (ts : List Token) (md : Metadata)
    (cs : List Component) (comp : Component) (ts' : List Token)
    (h : parseComponent ct ts md cs = .ok (comp, ts')) : ts' <:+ ts := by
  unfold parseComponent at h
  dsimp only at h
  cases hr : parseCellRange ct.value with
  | error m => rw [hr] at h; exact absurd h (by simp)
  | ok range =>
    rw [hr] at h
    cases hc : expectT .COLON ts with
    | error e => rw [hc] at h; exact absurd h (by simp)
    | ok cres =>
      rw [hc] at h
      obtain ⟨ctk, ts1⟩ := cres
      dsimp only at h
      cases hp : parseProps (dropNewlines ts1) with
      | error e => rw [hp] at h; exact absurd h (by simp)
      | ok pres =>
        rw [hp] at h
        obtain ⟨rawProps, ts3⟩ := pres
        dsimp only at h
        have hts1 : ts1 = ts.tail := expectT_ok_tail _ _ _ _ hc
        have hbase : ts3 <:+ ts :=
          (parseProps_suffix _ _ _ hp).trans
            ((dropNewlines_suffix ts1).trans (hts1 ▸ List.tail_suffix ts))
        split at h
        · exact absurd h (by simp)
        · split at h
          · exact absurd h (by simp)
          · split at h
            · exact absurd h (by simp)
            · split at h
              · exact absurd h (by simp)
              · split at h
                · exact absurd h (by simp)
                · split at h
                  · exact absurd h (by simp)
                  · injection h with h
                    injection h with h1 h2
                    exact h2 ▸ hbase

/-- The metadata-statement arm returns a suffix of its input and changes
the grid only by consuming a GRID token present in that input. -/
theorem parseMetadataStmt_spec (identToken : Token) (ts : List Token) (md : Metadata)
    (md' : Metadata) (ts' : List Token)
    (h : parseMetadataStmt identToken ts md = .ok (md', ts')) :
    ts' <:+ ts ∧ (md'.grid = md.grid ∨ ∃ t ∈ ts, t.type = .GRID) := by
  unfold parseMetadataStmt at h
  cases hc : expectT .COLON ts with
  | error e => rw [hc] at h; exact absurd h (by simp)
  | ok cres =>
    rw [hc] at h
    obtain ⟨ctk, ts1⟩ := cres
    dsimp only at h
    have hts1 : ts1 = ts.tail := expectT_ok_tail _ _ _ _ hc
    split at h
    · cases ht : expectT .RATIO_LIT ts1 with
      | error e => rw [ht] at h; exact absurd h (by simp)
      | ok tres =>
        rw [ht] at h
        obtain ⟨tk, ts2⟩ := tres
        injection h with h
        injection h with h1 h2
        subst h2
        have hts2 : ts2 = ts1.tail := expectT_ok_tail _ _ _ _ ht
        refine ⟨(hts2 ▸ List.tail_suffix ts1).trans (hts1 ▸ List.tail_suffix ts), Or.inl ?_⟩
        rw [← h1]
    · split at h
      · cases ht : expectT .GRID ts1 with
        | error e => rw [ht] at h; exact absurd h (by simp)
        | ok tres =>
          rw [ht] at h
          obtain ⟨tk, ts2⟩ := tres
          injection h with h
          injection h with h1 h2
          subst h2
          have hcons := expectT_ok_cons .GRID (by decide) ts1 tk ts2 ht
          refine ⟨(expectT_ok_tail _ _ _ _ ht ▸ List.tail_suffix ts1).trans
            (hts1 ▸ List.tail_suffix ts), Or.inr ⟨tk, ?_, hcons.2⟩⟩
          have htk1 : tk ∈ ts1 := hcons.1 ▸ List.mem_cons_self _ _
          have htk2 : tk ∈ ts.tail := hts1 ▸ htk1
          exact List.mem_of_mem_tail htk2
      · split at h
        · cases ht : expectT .NUMBER ts1 with
          | error e => rw [ht] at h; exact absurd h (by simp)
          | ok tres =>
            rw [ht] at h
            obtain ⟨tk, ts2⟩ := tres
            injection h with h
            injection h with h1 h2
            subst h2
            have hts2 : ts2 = ts1.tail := expectT_ok_tail _ _ _ _ ht
            refine ⟨(hts2 ▸ List.tail_suffix ts1).trans (hts1 ▸ List.tail_suffix ts), Or.inl ?_⟩
            rw [← h1]
        · split at h
          · cases ht : expectT .NUMBER ts1 with
            | error e => rw [ht] at h; exact absurd h (by simp)
            | ok tres =>
              rw [ht] at h
              obtain ⟨tk, ts2⟩ := tres
              injection h with h
              injection h with h1 h2
              subst h2
              have hts2 : ts2 = ts1.tail := expectT_ok_tail _ _ _ _ ht
              refine ⟨(hts2 ▸ List.tail_suffix ts1).trans (hts1 ▸ List.tail_suffix ts),
                Or.inl ?_⟩
              rw [← h1]
          · split at h
            · cases ht : parseColors ts1 with
              | error e => rw [ht] at h; exact absurd h (by simp)
              | ok tres =>
                rw [ht] at h
                obtain ⟨colors2, ts2⟩ := tres
                injection h with h
                injection h with h1 h2
                subst h2
                refine ⟨(parseColors_suffix _ _ _ ht).trans (hts1 ▸ List.tail_suffix ts),
                  Or.inl ?_⟩
                rw [← h1]
            · exact absurd h (by simp)

theorem noGridDecl_suffix (ts ts' : List Token) (hs : ts' <:+ ts)
    (h : noGridDecl ts = true) : noGridDecl ts' = true := by
  obtain ⟨pre, hpre⟩ := hs
  subst hpre
  induction pre with
  | nil => exact h
  | cons a l ih =>
    rw [List.cons_append] at h
    unfold noGridDecl at h
    rw [Bool.and_eq_true] at h
    exact ih h.2

theorem noGridDecl_to_afterCell (ts : List Token) (h : noGridDecl ts = true) :
    noGridDeclAfterCell ts = true := by
  induction ts with
  | nil => rfl
  | cons t rest ih =>
    unfold noGridDeclAfterCell
    unfold noGridDecl at h
    rw [Bool.and_eq_true] at h
    have hrest : noGridDecl rest = true := h.2
    split
    · exact hrest
    · exact ih hrest

theorem noGridDeclAfterCell_suffix (ts : List Token) :
    ∀ (ts' : List Token), ts' <:+ ts → noGridDeclAfterCell ts = true →
      noGridDeclAfterCell ts' = true := by
  induction ts with
  | nil => intro ts' hs h; rw [List.suffix_nil.mp hs]; rfl
  | cons t rest ih =>
    intro ts' hs h
    rcases List.suffix_cons_iff.mp hs with heq | hsuf
    · exact heq ▸ h
    · unfold noGridDeclAfterCell at h
      split at h
      · exact noGridDecl_to_afterCell _ (noGridDecl_suffix rest ts' hsuf h)
      · exact ih ts' hsuf h

theorem noGridDeclAfterCell_cell_head (t : Token) (rest : List Token)
    (hcell : t.type = .CELL_REF ∨ t.type = .CELL_RANGE)
    (h : noGridDeclAfterCell (t :: rest) = true) : noGridDecl rest = true := by
  unfold noGridDeclAfterCell at h
  split at h
  · exact h
  · exact absurd hcell (by assumption)

/-- `metadata.grid` changes across a metadata statement only when the
statement is a grid declaration: the identifier reads `grid` and the tokens
consumed start with a colon followed by a GRID literal. -/
theorem parseMetadataStmt_grid (identToken : Token) (ts : List Token) (md : Metadata)
    (md' : Metadata) (ts' : List Token)
    (h : parseMetadataStmt identToken ts md = .ok (md', ts')) :
    md'.grid = md.grid ∨
      (toLowerStr identToken.value = "grid" ∧
       ∃ c g rest, ts = c :: g :: rest ∧ c.type = .COLON ∧ g.type = .GRID) := by
  unfold parseMetadataStmt at h
  cases hc : expectT .COLON ts with
  | error e => rw [hc] at h; exact absurd h (by simp)
  | ok cres =>
    rw [hc] at h
    obtain ⟨ctk, ts1⟩ := cres
    dsimp only at h
    have hconsC := expectT_ok_cons .COLON (by decide) ts ctk ts1 hc
    split at h
    · cases ht : expectT .RATIO_LIT ts1 with
      | error e => rw [ht] at h; exact absurd h (by simp)
      | ok tres =>
        rw [ht] at h
        obtain ⟨tk, ts2⟩ := tres
        injection h with h
        injection h with h1 h2
        refine Or.inl ?_
        rw [← h1]
    · split at h
      · rename_i hname
        cases ht : expectT .GRID ts1 with
        | error e => rw [ht] at h; exact absurd h (by simp)
        | ok tres =>
          rw [ht] at h
          obtain ⟨tk, ts2⟩ := tres
          have hconsG := expectT_ok_cons .GRID (by decide) ts1 tk ts2 ht
          refine Or.inr ⟨hname, ctk, tk, ts2, ?_, hconsC.2, hconsG.2⟩
          rw [hconsC.1, hconsG.1]
      · split at h
        · cases ht : expectT .NUMBER ts1 with
          | error e => rw [ht] at h; exact absurd h (by simp)
          | ok tres =>
            rw [ht] at h
            obtain ⟨tk, ts2⟩ := tres
            injection h with h
            injection h with h1 h2
            refine Or.inl ?_
            rw [← h1]
        · split at h
          · cases ht : expectT .NUMBER ts1 with
            | error e => rw [ht] at h; exact absurd h (by simp)
            | ok tres =>
              rw [ht] at h
              obtain ⟨tk, ts2⟩ := tres
              injection h with h
              injection h with h1 h2
              refine Or.inl ?_
              rw [← h1]
          · split at h
            · cases ht : parseColors ts1 with
              | error e => rw [ht] at h; exact absurd h (by simp)
              | ok tres =>
                rw [ht] at h
                obtain ⟨colors2, ts2⟩ := tres
                injection h with h
                injection h with h1 h2
                refine Or.inl ?_
                rw [← h1]
            · exact absurd h (by simp)

theorem validateRangeWithinGrid_ok (range : CellRange) (grid : Nat × Nat)
    (rangeStr : String) (loc : SourceLocation)
    (h : validateRangeWithinGrid range grid rangeStr loc = .ok ()) :
    withinGrid range grid = true := by
  unfold validateRangeWithinGrid at h
  dsimp only at h
  split at h
  · exact absurd h (by simp)
  · split at h
    · exact absurd h (by simp)
    · rename_i hcol hrow
      push_neg at hcol hrow
      unfold withinGrid
      simp only [Bool.and_eq_true, decide_eq_true_eq]
      exact ⟨⟨⟨hcol.1, hcol.2⟩, hrow.1⟩, hrow.2⟩

theorem parseComponent_range_no_overlap (ct : Token) (ts : List Token) (md : Metadata)
    (cs : List Component) (comp : Component) (ts' : List Token)
    (h : parseComponent ct ts md cs = .ok (comp, ts')) :
    ∀ ex ∈ cs, rangesOverlap ex.range comp.range = false := by
  unfold parseComponent at h
  dsimp only at h
  cases hr : parseCellRange ct.value with
  | error m => rw [hr] at h; exact absurd h (by simp)
  | ok range =>
    rw [hr] at h
    cases hc : expectT .COLON ts with
    | error e => rw [hc] at h; exact absurd h (by simp)
    | ok cres =>
      rw [hc] at h
      obtain ⟨ctk, ts1⟩ := cres
      dsimp only at h
      cases hp : parseProps (dropNewlines ts1) with
      | error e => rw [hp] at h; exact absurd h (by simp)
      | ok pres =>
        rw [hp] at h
        obtain ⟨rawProps, ts3⟩ := pres
        dsimp only at h
        split at h
        · exact absurd h (by simp)
        · split at h
          · exact absurd h (by simp)
          · split at h
            · exact absurd h (by simp)
            · split at h
              · exact absurd h (by simp)
              · rename_i hfind
                split at h
                · exact absurd h (by simp)
                · split at h
                  · exact absurd h (by simp)
                  · injection h with h
                    injection h with h1 h2
                    intro ex hex
                    have hnone := List.find?_eq_none.mp hfind ex hex
                    have hcompr : comp.range = range := by rw [← h1]
                    rw [hcompr]
                    exact Bool.not_eq_true _ ▸ (by simpa using hnone)

theorem pairwiseNoOverlap_append (cs : List Component) (c : Component)
    (h1 : pairwiseNoOverlap cs = true)
    (h2 : ∀ a ∈ cs, rangesOverlap a.range c.range = false) :
    pairwiseNoOverlap (cs ++ [c]) = true := by
  induction cs with
  | nil => simp [pairwiseNoOverlap]
  | cons c0 rest ih =>
    rw [List.cons_append]
    unfold pairwiseNoOverlap at h1 ⊢
    rw [Bool.and_eq_true] at h1 ⊢
    constructor
    · rw [List.all_append, Bool.and_eq_true]
      refine ⟨h1.1, ?_⟩
      simp only [List.all_cons, List.all_nil, Bool.and_true]
      rw [h2 c0 (List.mem_cons_self _ _)]
      rfl
    · exact ih h1.2 (fun a ha => h2 a (List.mem_cons_of_mem _ ha))

/-- Main-loop invariant: the accepted components stay pairwise
non-overlapping (each new component is checked against all previously
accepted ones before being appended). -/
theorem parseLoop_pairwise :
    ∀ (fuel : Nat) (ts : List Token) (md : Metadata) (cs : List Component)
      (doc : KuiDocument), parseLoop fuel ts md cs = .ok doc →
      pairwiseNoOverlap cs = true → pairwiseNoOverlap doc.components = true
  | 0, _, _, _, _, h, _ => absurd h (by simp [parseLoop])
  | fuel + 1, ts, md, cs, doc, h, hcs => by
    unfold parseLoop at h
    dsimp only at h
    split at h
    · injection h with h
      rw [← h]
      exact hcs
    · split at h
      · injection h with h
        rw [← h]
        exact hcs
      · cases hm : parseMetadataStmt (peekT (dropNewlines ts)) (dropNewlines ts).tail md with
        | error e => rw [hm] at h; exact absurd h (by simp)
        | ok mres =>
          rw [hm] at h
          obtain ⟨md2, ts2⟩ := mres
          exact parseLoop_pairwise fuel ts2 md2 cs doc h hcs
      all_goals
        first
        | exact parseLoop_pairwise fuel _ md cs doc h hcs
        | (cases hcomp : parseComponent (peekT (dropNewlines ts)) (dropNewlines ts).tail md cs with
           | error e => rw [hcomp] at h; exact absurd h (by simp)
           | ok cres =>
             rw [hcomp] at h
             obtain ⟨component, ts2⟩ := cres
             dsimp only at h
             cases hval : validateRangeWithinGrid component.range md.grid
                 (peekT (dropNewlines ts)).value (peekT (dropNewlines ts)).loc with
             | error e => rw [hval] at h; exact absurd h (by simp)
             | ok u =>
               rw [hval] at h
               exact parseLoop_pairwise fuel ts2 md (cs ++ [component]) doc h
                 (pairwiseNoOverlap_append cs component hcs
                   (parseComponent_range_no_overlap _ _ _ _ _ _ hcomp)))

/-- Main-loop invariant: when no grid declaration starts after the first
cell-reference token, every accepted component lies within the grid the
returned document records. -/
theorem parseLoop_within :
    ∀ (fuel : Nat) (ts : List Token) (md : Metadata) (cs : List Component)
      (doc : KuiDocument), parseLoop fuel ts md cs = .ok doc →
      noGridDeclAfterCell ts = true →
      (cs = [] ∨ noGridDecl ts = true) →
      (∀ c ∈ cs, withinGrid c.range md.grid = true) →
      ∀ c ∈ doc.components, withinGrid c.range doc.metadata.grid = true
  | 0, _, _, _, _, h, _, _, _ => absurd h (by simp [parseLoop])
  | fuel + 1, ts, md, cs, doc, h, hng, hdisj, hwithin => by
    have hts1 : dropNewlines ts <:+ ts := dropNewlines_suffix ts
    have htail : (dropNewlines ts).tail <:+ ts := (List.tail_suffix _).trans hts1
    unfold parseLoop at h
    dsimp only at h
    split at h
    · injection h with h
      rw [← h]
      exact hwithin
    · split at h
      · injection h with h
        rw [← h]
        exact hwithin
      · -- IDENTIFIER: metadata statement
        rename_i heq
        cases hm : parseMetadataStmt (peekT (dropNewlines ts)) (dropNewlines ts).tail md with
        | error e => rw [hm] at h; exact absurd h (by simp)
        | ok mres =>
          rw [hm] at h
          obtain ⟨md2, ts2⟩ := mres
          obtain ⟨hsuf, _⟩ := parseMetadataStmt_spec _ _ _ _ _ hm
          have hts2 : ts2 <:+ ts := hsuf.trans htail
          have hng2 : noGridDeclAfterCell ts2 = true :=
            noGridDeclAfterCell_suffix ts ts2 hts2 hng
          rcases hdisj with hnil | hngt
          · subst hnil
            exact parseLoop_within fuel ts2 md2 [] doc h hng2 (Or.inl rfl)
              (fun c hc => absurd hc (List.not_mem_nil c))
          · rcases parseMetadataStmt_grid _ _ _ _ _ hm with
              hsame | ⟨hname, c0, g0, rest2, htl, hcol, hgr⟩
            · exact parseLoop_within fuel ts2 md2 cs doc h hng2
                (Or.inr (noGridDecl_suffix ts ts2 hts2 hngt))
                (fun c hc => hsame ▸ hwithin c hc)
            · exfalso
              have hne : dropNewlines ts ≠ [] := by
                intro hnil
                rw [hnil] at heq
                simp [peekT, eofToken] at heq
              obtain ⟨tok0, rest0, hcons⟩ := List.exists_cons_of_ne_nil hne
              have hpeek : peekT (dropNewlines ts) = tok0 := by rw [hcons]; rfl
              have htail0 : (dropNewlines ts).tail = rest0 := by rw [hcons]; rfl
              have hrest0 : rest0 = c0 :: g0 :: rest2 := htail0.symm.trans htl
              have hshape : dropNewlines ts = tok0 :: c0 :: g0 :: rest2 := by
                rw [hcons, hrest0]
              have hngd1 : noGridDecl (dropNewlines ts) = true :=
                noGridDecl_suffix ts _ hts1 hngt
              rw [hshape] at hngd1
              unfold noGridDecl at hngd1
              rw [Bool.and_eq_true] at hngd1
              have hdecl : isGridDeclAt (tok0 :: c0 :: g0 :: rest2) = true := by
                simp only [isGridDeclAt, Bool.and_eq_true, decide_eq_true_eq]
                exact ⟨⟨⟨hpeek ▸ heq, hpeek ▸ hname⟩, hcol⟩, hgr⟩
              rw [hdecl] at hngd1
              exact absurd hngd1.1 (by decide)
      all_goals
        first
        | (rename_i hcellty
           exact parseLoop_within fuel _ md cs doc h
             (noGridDeclAfterCell_suffix ts _ ((List.tail_suffix _).trans hts1) hng)
             (hdisj.imp id (noGridDecl_suffix ts _ ((List.tail_suffix _).trans hts1)))
             hwithin)
        | (first
           | (have hcell : (peekT (dropNewlines ts)).type = .CELL_REF ∨
                 (peekT (dropNewlines ts)).type = .CELL_RANGE := Or.inl (by assumption))
           | (have hcell : (peekT (dropNewlines ts)).type = .CELL_REF ∨
                 (peekT (dropNewlines ts)).type = .CELL_RANGE := Or.inr (by assumption))
           cases hcomp : parseComponent (peekT (dropNewlines ts)) (dropNewlines ts).tail md cs with
           | error e => rw [hcomp] at h; exact absurd h (by simp)
           | ok cres =>
             rw [hcomp] at h
             obtain ⟨component, ts2⟩ := cres
             dsimp only at h
             cases hval : validateRangeWithinGrid component.range md.grid
                 (peekT (dropNewlines ts)).value (peekT (dropNewlines ts)).loc with
             | error e => rw [hval] at h; exact absurd h (by simp)
             | ok u =>
               rw [hval] at h
               -- the head of `dropNewlines ts` is the cell token
               have hne : dropNewlines ts ≠ [] := by
                 intro hnil
                 rw [hnil] at hcell
                 simp [peekT, eofToken] at hcell
               obtain ⟨tok0, rest0, hcons⟩ := List.exists_cons_of_ne_nil hne
               have hpeek : peekT (dropNewlines ts) = tok0 := by rw [hcons]; rfl
               have hngrest : noGridDecl rest0 = true := by
                 have hng1 : noGridDeclAfterCell (dropNewlines ts) = true :=
                   noGridDeclAfterCell_suffix ts _ hts1 hng
                 rw [hcons] at hng1
                 exact noGridDeclAfterCell_cell_head tok0 rest0
                   (by rw [← hpeek]; exact hcell) hng1
               have hts2rest : ts2 <:+ rest0 := by
                 have := parseComponent_suffix _ _ _ _ _ _ hcomp
                 rw [hcons] at this
                 exact this
               have hng2 : noGridDecl ts2 = true := noGridDecl_suffix rest0 ts2 hts2rest hngrest
               refine parseLoop_within fuel ts2 md (cs ++ [component]) doc h
                 (noGridDecl_to_afterCell ts2 hng2) (Or.inr hng2) ?_
               intro c hc
               rcases List.mem_append.mp hc with hcm | hcm
               · exact hwithin c hcm
               · rw [List.mem_singleton.mp hcm]
                 exact validateRangeWithinGrid_ok _ _ _ _ hval)

def imgSampleRect : LayoutRect := ⟨0, 0, 100, 100, 0⟩

def imgFailSrc : Component := ⟨.img, ⟨⟨0, 0⟩, ⟨0, 0⟩⟩, { src := some "missing.png" }⟩

def imgNoSrc : Component := ⟨.img, ⟨⟨0, 0⟩, ⟨0, 0⟩⟩, {}⟩

/-! ## The claims -/

/-- C5: on a 4×3 grid with a 1280×720 canvas and zero gap,
`calculateCellRect` puts cell A1 at (0,0) sized 320×240, cell D3 at
(960,480) sized 320×240, and the merged range A1..B2 at (0,0) sized
640×480; with a gap of 10 the merged A1..B2 span is 2·312.5 + one interior
gap = 635 wide (no edge gap). -/
theorem c5_cell_geometry :
    calculateCellRect ⟨⟨0, 0⟩, ⟨0, 0⟩⟩ (4, 3) ⟨1280, 720⟩ ⟨0, 0⟩ = ⟨0, 0, 320, 240, 0⟩ ∧
    calculateCellRect ⟨⟨3, 2⟩, ⟨3, 2⟩⟩ (4, 3) ⟨1280, 720⟩ ⟨0, 0⟩ = ⟨960, 480, 320, 240, 0⟩ ∧
    calculateCellRect ⟨⟨0, 0⟩, ⟨1, 1⟩⟩ (4, 3) ⟨1280, 720⟩ ⟨0, 0⟩ = ⟨0, 0, 640, 480, 0⟩ ∧
    (calculateCellRect ⟨⟨0, 0⟩, ⟨1, 1⟩⟩ (4, 3) ⟨1280, 720⟩ ⟨10, 0⟩).width = 635 := by
  refine ⟨?_, ?_, ?_, ?_⟩ <;>
    · simp only [calculateCellRect, calculateSizes, LayoutRect.mk.injEq]
      norm_num [List.range_succ, List.replicate, List.getD]

/-- C3 counterexample: for a component whose range is out of the grid
bounds *and* whose bg names an undefined theme color, the error actually
raised is the theme-color error, not the bounds error the claim
predicts. -/
theorem c3_counterexample :
    parse "grid: 2x2\nE1: \x7b type: box, bg: $x \x7d" =
      .error (.kui "Undefined theme color: $x" ⟨2, 1, 10⟩) ∧
    ¬ parse "grid: 2x2\nE1: \x7b type: box, bg: $x \x7d" =
      .error (.kui "Cell \"E1\" exceeds column bounds. Grid is 2x2, valid columns: A-B"
        ⟨2, 1, 10⟩) := by
  refine ⟨by decide, by decide⟩

/-- C3 (amended): the semantic checks run in the order type, align,
overlap, theme-color resolution, and *then* grid bounds (the bounds check
runs in the main loop after `parseComponent` returns) — so an
out-of-bounds range with an undefined `$`-color reports the color error,
while the same range with no color property reports the column-bounds
error. -/
theorem c3_check_order :
    parse "grid: 2x2\nE1: \x7b type: box, bg: $x \x7d" =
      .error (.kui "Undefined theme color: $x" ⟨2, 1, 10⟩) ∧
    parse "grid: 2x2\nE1: \x7b type: box \x7d" =
      .error (.kui "Cell \"E1\" exceeds column bounds. Grid is 2x2, valid columns: A-B"
        ⟨2, 1, 10⟩) := by
  refine ⟨by decide, by decide⟩

/-- C8: on the input `"\n\r\n"` the lexer emits two consecutive NEWLINE
tokens — the carriage return between the newlines resets the
`lastWasNewline` collapsing flag (the assignment precedes the `\r` skip in
the scanner), contradicting the claimed at-most-one-NEWLINE collapse for
newline runs with interleaved carriage returns. -/
theorem c8_crlf_two_newlines :
    tokenize "\n\r\n" =
      .ok [⟨.NEWLINE, "\n", ⟨1, 1, 0⟩⟩, ⟨.NEWLINE, "\n", ⟨2, 2, 2⟩⟩, ⟨.EOF, "", ⟨3, 1, 3⟩⟩] ∧
    hasConsecNewlines
      [⟨.NEWLINE, "\n", ⟨1, 1, 0⟩⟩, ⟨.NEWLINE, "\n", ⟨2, 2, 2⟩⟩, ⟨.EOF, "", ⟨3, 1, 3⟩⟩] = true := by
  refine ⟨by decide, by decide⟩

/-- C9 counterexample: `parse "A0: { type: box }"` raises the
cell-reference decoding error, a plain `Error` value that carries no
`SourceLocation` field at all (and none in its message either). -/
theorem c9_counterexample :
    parse "A0: \x7b type: box \x7d" =
      .error (.plain "Invalid row number in cell reference: A0") := by
  decide

/-- C9 (amended): errors raised by the parser's own syntax/semantic checks
are `KuiSyntaxError` values carrying a `SourceLocation` field; errors
originating in the lexer propagate through `parse` as plain `Error`
objects whose location exists only inside the message text; cell-reference
decoding errors are plain `Error` objects with no location at all. -/
theorem c9_error_objects :
    (∀ (input msg : String), tokenize input = .error msg →
       parse input = .error (.plain msg)) ∧
    parse "A1: \x7b type: invalid \x7d" =
      .error (.kui "Invalid component type: invalid" ⟨1, 1, 0⟩) ∧
    parse "A1: \x7b type: txt, value: \"oops" =
      .error (.plain "Unterminated string at 1:25") := by
  refine ⟨?_, by decide, by decide⟩
  intro input msg h
  simp [parse, h]

/-- C9 witness: the amended theorem applied to the lexer error raised by
the input `"@"`. -/
theorem c9_witness :
    parse "@" = .error (.plain "Unexpected character: \x27@\x27 at 1:1") :=
  c9_error_objects.1 "@" "Unexpected character: \x27@\x27 at 1:1" (by decide)

/-- C2 counterexample: a structurally valid document whose metadata names
the unknown theme "neon" makes `generateSvg` throw (the `getTheme` lookup),
so render is not total over every valid document. -/
theorem c2_counterexample :
    generateSvg ⟨{ ratio := (16, 9), grid := (4, 3), theme := some "neon" }, []⟩ none
      (fun _ _ => none) =
    .error "Unknown theme \"neon\". Available themes: default, clean, bold" := by
  decide

/-- C2 (amended): for every document whose metadata theme is absent, empty,
or one of the known theme names, `generateSvg` never throws — it returns a
vector output string for any base path and any image-loading capability
(image-loading failure is absorbed inside `renderImg`). -/
theorem c2_render_never_throws (doc : KuiDocument) (basePath : Option String)
    (load : String → String → Option String)
    (h : doc.metadata.theme = none ∨ doc.metadata.theme = some "" ∨
         doc.metadata.theme = some "default" ∨ doc.metadata.theme = some "clean" ∨
         doc.metadata.theme = some "bold") :
    ∃ svg, generateSvg doc basePath load = .ok svg := by
  have hth : ∃ th, getTheme doc.metadata.theme = .ok th := by
    rcases h with h | h | h | h | h <;> rw [h] <;> exact ⟨_, rfl⟩
  obtain ⟨th, hth⟩ := hth
  simp only [generateSvg, hth]
  exact ⟨_, rfl⟩

/-- C2 witness: the amended theorem applied to the empty document with
default metadata, no base path, and an always-failing loader. -/
theorem c2_witness :
    ∃ svg, generateSvg ⟨initialMetadata, []⟩ none (fun _ _ => none) = .ok svg :=
  c2_render_never_throws _ _ _ (Or.inl rfl)

set_option maxRecDepth 40000 in
set_option maxHeartbeats 2000000 in
/-- C6 counterexample: with `alt` absent, rendering an img whose source
fails to load labels the placeholder with the src string
(`[IMG: missing.png]`), while omitting the source labels it `[IMG: image]`
— the two markups differ. -/
theorem c6_counterexample :
    ¬ renderImg imgFailSrc imgSampleRect defaultTheme (some ⟨some "/base"⟩) (fun _ _ => none) =
      renderImg imgNoSrc imgSampleRect defaultTheme (some ⟨some "/base"⟩) (fun _ _ => none) := by
  rw [renderImg_load_fail _ _ _ _ _ (fun _ _ => rfl),
      renderImg_load_fail _ _ _ _ _ (fun _ _ => rfl)]
  simp only [imgFailSrc, imgNoSrc, imgSampleRect, defaultTheme, renderImgPlaceholder]
  norm_num
  decide

/-- C6 (amended): when every load attempt fails, `renderImg` always
produces the placeholder whose label resolves as alt → src → "image"; and
whenever `alt` is present, that markup equals the src-omitted rendering of
the same component.  (With `alt` absent the labels resolve to the src
string vs "image", so the two renderings differ in general, as the
counterexample shows.) -/
theorem c6_placeholder_fallback :
    (∀ (c : Component) (rect : LayoutRect) (theme : Theme) (context : Option RenderContext)
       (load : String → String → Option String),
       (∀ s bp, load s bp = none) →
       renderImg c rect theme context load =
         renderImgPlaceholder rect (c.props.alt.getD (c.props.src.getD "image")) theme
           c.props.bg c.props.border) ∧
    (∀ (c : Component) (rect : LayoutRect) (theme : Theme) (context : Option RenderContext)
       (load : String → String → Option String) (a : String),
       (∀ s bp, load s bp = none) → c.props.alt = some a →
       renderImg c rect theme context load =
         renderImg { c with props := { c.props with src := none } } rect theme context load) := by
  refine ⟨renderImg_load_fail, ?_⟩
  intro c rect theme context load a hload halt
  rw [renderImg_load_fail c rect theme context load hload,
      renderImg_load_fail { c with props := { c.props with src := none } } rect theme context load hload]
  simp [halt]

/-- C6 witness: the amended theorem's equality at a concrete component
with `alt` present and a failing loader. -/
theorem c6_witness :
    renderImg ⟨.img, ⟨⟨0, 0⟩, ⟨0, 0⟩⟩, { src := some "missing.png", alt := some "pic" }⟩
      imgSampleRect defaultTheme (some ⟨some "/base"⟩) (fun _ _ => none) =
    renderImg ⟨.img, ⟨⟨0, 0⟩, ⟨0, 0⟩⟩, { src := none, alt := some "pic" }⟩
      imgSampleRect defaultTheme (some ⟨some "/base"⟩) (fun _ _ => none) :=
  c6_placeholder_fallback.2
    ⟨.img, ⟨⟨0, 0⟩, ⟨0, 0⟩⟩, { src := some "missing.png", alt := some "pic" }⟩
    imgSampleRect defaultTheme (some ⟨some "/base"⟩) (fun _ _ => none) "pic"
    (fun _ _ => rfl) rfl

/-- C10: a top-level token that is neither an identifier, a cell
reference, a cell range, a newline, nor end-of-input is silently skipped:
parsing the token list with it prepended equals parsing without it, and a
source file starting with a stray bare number still parses to the same
document as the file without it. -/
theorem c10_skip_unknown :
    (∀ (t : Token) (ts : List Token),
       ¬(t.type = .IDENTIFIER ∨ t.type = .CELL_REF ∨ t.type = .CELL_RANGE ∨
         t.type = .NEWLINE ∨ t.type = .EOF) →
       parseTokens (t :: ts) = parseTokens ts) ∧
    parse "5\nA1: \x7b type: box \x7d" = parse "A1: \x7b type: box \x7d" := by
  constructor
  · intro t ts h
    cases htype : t.type <;>
      simp [htype, not_or] at h ⊢ <;>
      simp [parseTokens, parseLoop, peekT, dropNewlines, htype]
  · have h1 : parse "5\nA1: \x7b type: box \x7d" =
        .ok ⟨{ ratio := (16, 9), grid := (4, 3) },
             [⟨.box, ⟨⟨0, 0⟩, ⟨0, 0⟩⟩, { align := some "left" }⟩]⟩ := by decide
    have h2 : parse "A1: \x7b type: box \x7d" =
        .ok ⟨{ ratio := (16, 9), grid := (4, 3) },
             [⟨.box, ⟨⟨0, 0⟩, ⟨0, 0⟩⟩, { align := some "left" }⟩]⟩ := by decide
    exact h1.trans h2.symm

/-- C10 witness: the skip equation applied to a bare NUMBER token. -/
theorem c10_witness :
    parseTokens [⟨.NUMBER, "5", ⟨1, 1, 0⟩⟩] = parseTokens [] :=
  c10_skip_unknown.1 ⟨.NUMBER, "5", ⟨1, 1, 0⟩⟩ [] (by decide)

/-- C4: for a fixed string, fixed padding and fixed starting (theme) font
size, the font size returned by `fitTextToRect` is monotonically
non-increasing as the target rectangle shrinks (width and height each
non-increasing), and the returned font size is always at least 8. -/
theorem c4_fit_monotone (text : String) (padding themeFontSize w1 h1 w2 h2 : ℚ)
    (hw : w2 ≤ w1) (hh : h2 ≤ h1) :
    (fitTextToRect text w2 h2 padding themeFontSize).2 ≤
      (fitTextToRect text w1 h1 padding themeFontSize).2 ∧
    (8 : ℚ) ≤ (fitTextToRect text w2 h2 padding themeFontSize).2 := by
  unfold fitTextToRect
  constructor
  · exact fitLoop_mono text (w1 - padding * 2) (h1 - padding * 2)
      (w2 - padding * 2) (h2 - padding * 2) (by linarith) (by linarith) _ themeFontSize
  · exact fitLoop_ge_min text (w2 - padding * 2) (h2 - padding * 2) _ themeFontSize

/-- C4 witness: the monotonicity theorem applied to the string "Hi" with a
200×100 rectangle shrunk to 100×50, padding 0, theme font size 24. -/
theorem c4_witness :
    (fitTextToRect "Hi" 100 50 0 24).2 ≤ (fitTextToRect "Hi" 200 100 0 24).2 ∧
    (8 : ℚ) ≤ (fitTextToRect "Hi" 100 50 0 24).2 :=
  c4_fit_monotone "Hi" 0 24 200 100 100 50 (by norm_num) (by norm_num)

/-- C7: `parseCellRange` maps a single reference to the degenerate range,
decodes a two-sided form by normalising the two endpoints component-wise
with min/max — hence every returned range satisfies `start ≤ stop` on both
axes — and `parseCellRange "B2..A1" = parseCellRange "A1..B2"`. -/
theorem c7_range_normalization :
    (∀ (s : String) (r : CellRange), parseCellRange s = .ok r →
       r.start.col ≤ r.stop.col ∧ r.start.row ≤ r.stop.row) ∧
    (∀ (s : String) (c : CellCoord), parseCellRef s = .ok c →
       parseCellRange s = .ok ⟨c, c⟩) ∧
    parseCellRange "B2..A1" = parseCellRange "A1..B2" := by
  refine ⟨?_, ?_, by decide⟩
  · intro s r h
    unfold parseCellRange at h
    split at h
    · split at h
      · exact absurd h (by simp)
      · rename_i coord _
        simp only [Except.ok.injEq] at h
        subst h
        exact ⟨Nat.le_refl _, Nat.le_refl _⟩
    · split at h
      · exact absurd h (by simp)
      · split at h
        · exact absurd h (by simp)
        · simp only [Except.ok.injEq] at h
          subst h
          exact ⟨min_le_max, min_le_max⟩
    · exact absurd h (by simp)
  · intro s c h
    have hnd : '.' ∉ s.data := parseCellRef_no_dot s c h
    unfold parseCellRange
    rw [splitOnDots_no_dot s.data hnd]
    have hs : List.asString s.data = s := String.asString_toList s
    simp only [hs, h]

/-- C7 witness: the normalization theorem applied to the concrete range
`"B2..A1"`, whose decoded value is start (0,0), stop (1,1). -/
theorem c7_witness :
    (⟨⟨0, 0⟩, ⟨1, 1⟩⟩ : CellRange).start.col ≤ (⟨⟨0, 0⟩, ⟨1, 1⟩⟩ : CellRange).stop.col ∧
    (⟨⟨0, 0⟩, ⟨1, 1⟩⟩ : CellRange).start.row ≤ (⟨⟨0, 0⟩, ⟨1, 1⟩⟩ : CellRange).stop.row :=
  c7_range_normalization.1 "B2..A1" ⟨⟨0, 0⟩, ⟨1, 1⟩⟩ (by decide)

def c1in : String := "grid: 2x2\nA1: \x7b type: box \x7d\nB2: \x7b type: txt \x7d"

def c1doc : KuiDocument := (parse c1in).toOption.getD ⟨initialMetadata, []⟩

/-- C1 (amended): for every source text accepted by `parse`, the cell ranges
of any two distinct components never overlap — unconditionally; and
provided no grid declaration (an identifier reading `grid`, a colon and a
grid-dimension token, the exact shape the main loop consumes when it
updates `metadata.grid`) starts after the first component declaration in
the token stream, every component range also lies within the grid recorded
in the returned document's metadata.  The bounds half needs the proviso
because each range is validated against the grid current at parse time,
and a later grid declaration can shrink it. -/
theorem c1_parse_invariant (input : String) (doc : KuiDocument)
    (h : parse input = .ok doc) :
    pairwiseNoOverlap doc.components = true ∧
    (noGridDeclAfterCell ((tokenize input).toOption.getD []) = true →
      allWithin doc = true) := by
  cases htok : tokenize input with
  | error m =>
    unfold parse at h
    rw [htok] at h
    exact absurd h (by simp)
  | ok ts =>
    unfold parse at h
    rw [htok] at h
    unfold parseTokens at h
    refine ⟨parseLoop_pairwise _ _ _ _ _ h rfl, ?_⟩
    intro hng
    simp only [Except.toOption, Option.getD] at hng
    unfold allWithin
    rw [List.all_eq_true]
    intro c hc
    exact parseLoop_within _ ts initialMetadata [] doc h hng (Or.inl rfl)
      (fun c hc => absurd hc (List.not_mem_nil c)) c hc

/-- C1 counterexample: a `grid` statement that appears after a component has
been accepted is applied to the document's metadata but does not trigger any
re-validation, so the accepted component C3 ends up outside the final 1x1
grid: the global invariant as stated fails for this accepted input. -/
theorem c1_counterexample :
    (parse "C3: \x7b type: box \x7d\ngrid: 1x1").toOption.map allWithin = some false ∧
    (parse "C3: \x7b type: box \x7d\ngrid: 1x1").toOption.map
      (fun d => d.metadata.grid) = some (1, 1) :=
  ⟨by decide, by decide⟩

/-- C1 witness: the invariant theorem applied to a concrete two-component
document on an explicit 2x2 grid declared before any component, with the
no-later-grid-declaration antecedent discharged by evaluation. -/
theorem c1_witness :
    pairwiseNoOverlap c1doc.components = true ∧ allWithin c1doc = true :=
  ⟨(c1_parse_invariant c1in c1doc (by decide)).1,
   (c1_parse_invariant c1in c1doc (by decide)).2 (by decide)⟩

end Katsuragi
